import Mathlib

/-!
# Verification development for `gen/dynamodb/dynamodb.go`

The Go package is a typed client surface: thirteen methods on `*DynamoDB`, each of the form

    resp = &XOutput{}
    err = c.client.Do("X", "POST", "/", req, resp)
    return

plus the request and response shapes, declared as structs with `encoding/json` tags.

Embedding conventions.

* A Go slice is `Option (List α)`: `none` is the nil slice, `some []` the empty non-nil slice.
* A Go map with string keys is `Option (List (String × α))`: `none` is the nil map, and the
  entries of a map are listed in increasing key order (the order `encoding/json` emits them).
* A Go `string` field is a `String`: the text of a Go string that holds valid UTF-8. What
  `encoding/json` does with a Go string that does not is in the section on Go strings
  (`wireText`, `goBytes`).
* `int`, `int64` are `Int`; `float64` and `time.Time` values are only carried, never computed
  with, and are represented by their bit pattern / instant.
* A Go `error` is `Option Error`, `none` being `nil`.
* The zero value of a struct is the Lean structure with every field at its default (`{}`);
  `AttributeValue`, which is recursive, has the explicit `AttributeValue.zero`.
* The transport `aws.JSONClient.Do`, `endpoints.Lookup` and `http.DefaultClient` belong to
  other packages and are parameters of the development.
-/

namespace dynamodb

/-! ## Shapes -/

/-- A byte. -/
abbrev Byte := Fin 256

/-- Go `float64`, carried as its IEEE-754 bit pattern. -/
structure Float64 where
  bits : Nat := 0

/-- Go `time.Time`, carried as its instant. -/
structure Time where
  unixNano : Int := 0

/-- A non-nil Go `error` value, opaque to this package. -/
structure Error where
  text : String

/-- `AttributeValue` (dynamodb.go, lines 326-338). -/
structure AttributeValue where
  B : Option (List Byte)
  BOOL : Bool
  BS : Option (List (Option (List Byte)))
  L : Option (List AttributeValue)
  M : Option (List (String × AttributeValue))
  N : String
  NS : Option (List String)
  NULL : Bool
  S : String
  SS : Option (List String)

/-- The zero value `AttributeValue{}`. -/
def AttributeValue.zero : AttributeValue :=
  ⟨none, false, none, none, none, "", none, false, "", none⟩

/-- Go `map[string]AttributeValue`: an item, a key, or a cursor. -/
abbrev AttributeMap := Option (List (String × AttributeValue))

structure AttributeDefinition where
  AttributeName : String := ""
  AttributeType : String := ""

structure AttributeValueUpdate where
  Action : String := ""
  Value : AttributeValue := AttributeValue.zero

structure Capacity where
  CapacityUnits : Float64 := {}

structure Condition where
  AttributeValueList : Option (List AttributeValue) := none
  ComparisonOperator : String := ""

structure ConsumedCapacity where
  CapacityUnits : Float64 := {}
  GlobalSecondaryIndexes : Option (List (String × Capacity)) := none
  LocalSecondaryIndexes : Option (List (String × Capacity)) := none
  Table : Capacity := {}
  TableName : String := ""

structure KeySchemaElement where
  AttributeName : String := ""
  KeyType : String := ""

structure Projection where
  NonKeyAttributes : Option (List String) := none
  ProjectionType : String := ""

structure ProvisionedThroughput where
  ReadCapacityUnits : Int := 0
  WriteCapacityUnits : Int := 0

structure ProvisionedThroughputDescription where
  LastDecreaseDateTime : Time := {}
  LastIncreaseDateTime : Time := {}
  NumberOfDecreasesToday : Int := 0
  ReadCapacityUnits : Int := 0
  WriteCapacityUnits : Int := 0

structure GlobalSecondaryIndex where
  IndexName : String := ""
  KeySchema : Option (List KeySchemaElement) := none
  Projection : Projection := {}
  ProvisionedThroughput : ProvisionedThroughput := {}

structure GlobalSecondaryIndexDescription where
  IndexName : String := ""
  IndexSizeBytes : Int := 0
  IndexStatus : String := ""
  ItemCount : Int := 0
  KeySchema : Option (List KeySchemaElement) := none
  Projection : Projection := {}
  ProvisionedThroughput : ProvisionedThroughputDescription := {}

structure UpdateGlobalSecondaryIndexAction where
  IndexName : String := ""
  ProvisionedThroughput : ProvisionedThroughput := {}

structure GlobalSecondaryIndexUpdate where
  Update : UpdateGlobalSecondaryIndexAction := {}

structure ItemCollectionMetrics where
  ItemCollectionKey : AttributeMap := none
  SizeEstimateRangeGB : Option (List Float64) := none

structure KeysAndAttributes where
  AttributesToGet : Option (List String) := none
  ConsistentRead : Bool := false
  ExpressionAttributeNames : Option (List (String × String)) := none
  Keys : Option (List AttributeMap) := none
  ProjectionExpression : String := ""

structure LocalSecondaryIndex where
  IndexName : String := ""
  KeySchema : Option (List KeySchemaElement) := none
  Projection : Projection := {}

structure LocalSecondaryIndexDescription where
  IndexName : String := ""
  IndexSizeBytes : Int := 0
  ItemCount : Int := 0
  KeySchema : Option (List KeySchemaElement) := none
  Projection : Projection := {}

structure ExpectedAttributeValue where
  AttributeValueList : Option (List AttributeValue) := none
  ComparisonOperator : String := ""
  Exists : Bool := false
  Value : AttributeValue := AttributeValue.zero

structure DeleteRequest where
  Key : AttributeMap := none

structure PutRequest where
  Item : AttributeMap := none

structure WriteRequest where
  DeleteRequest : DeleteRequest := {}
  PutRequest : PutRequest := {}

structure TableDescription where
  AttributeDefinitions : Option (List AttributeDefinition) := none
  CreationDateTime : Time := {}
  GlobalSecondaryIndexes : Option (List GlobalSecondaryIndexDescription) := none
  ItemCount : Int := 0
  KeySchema : Option (List KeySchemaElement) := none
  LocalSecondaryIndexes : Option (List LocalSecondaryIndexDescription) := none
  ProvisionedThroughput : ProvisionedThroughputDescription := {}
  TableName : String := ""
  TableSizeBytes : Int := 0
  TableStatus : String := ""

/-! ### Requests and responses -/

structure BatchGetItemInput where
  RequestItems : Option (List (String × KeysAndAttributes)) := none
  ReturnConsumedCapacity : String := ""

structure BatchGetItemOutput where
  ConsumedCapacity : Option (List ConsumedCapacity) := none
  Responses : Option (List (String × Option (List AttributeMap))) := none
  UnprocessedKeys : Option (List (String × KeysAndAttributes)) := none

structure BatchWriteItemInput where
  RequestItems : Option (List (String × Option (List WriteRequest))) := none
  ReturnConsumedCapacity : String := ""
  ReturnItemCollectionMetrics : String := ""

structure BatchWriteItemOutput where
  ConsumedCapacity : Option (List ConsumedCapacity) := none
  ItemCollectionMetrics : Option (List (String × Option (List ItemCollectionMetrics))) := none
  UnprocessedItems : Option (List (String × Option (List WriteRequest))) := none

structure CreateTableInput where
  AttributeDefinitions : Option (List AttributeDefinition) := none
  GlobalSecondaryIndexes : Option (List GlobalSecondaryIndex) := none
  KeySchema : Option (List KeySchemaElement) := none
  LocalSecondaryIndexes : Option (List LocalSecondaryIndex) := none
  ProvisionedThroughput : ProvisionedThroughput := {}
  TableName : String := ""

structure CreateTableOutput where
  TableDescription : TableDescription := {}

structure DeleteItemInput where
  ConditionExpression : String := ""
  ConditionalOperator : String := ""
  Expected : Option (List (String × ExpectedAttributeValue)) := none
  ExpressionAttributeNames : Option (List (String × String)) := none
  ExpressionAttributeValues : AttributeMap := none
  Key : AttributeMap := none
  ReturnConsumedCapacity : String := ""
  ReturnItemCollectionMetrics : String := ""
  ReturnValues : String := ""
  TableName : String := ""

structure DeleteItemOutput where
  Attributes : AttributeMap := none
  ConsumedCapacity : ConsumedCapacity := {}
  ItemCollectionMetrics : ItemCollectionMetrics := {}

structure DeleteTableInput where
  TableName : String := ""

structure DeleteTableOutput where
  TableDescription : TableDescription := {}

structure DescribeTableInput where
  TableName : String := ""

structure DescribeTableOutput where
  Table : TableDescription := {}

structure GetItemInput where
  AttributesToGet : Option (List String) := none
  ConsistentRead : Bool := false
  ExpressionAttributeNames : Option (List (String × String)) := none
  Key : AttributeMap := none
  ProjectionExpression : String := ""
  ReturnConsumedCapacity : String := ""
  TableName : String := ""

structure GetItemOutput where
  ConsumedCapacity : ConsumedCapacity := {}
  Item : AttributeMap := none

structure ListTablesInput where
  ExclusiveStartTableName : String := ""
  Limit : Int := 0

structure ListTablesOutput where
  LastEvaluatedTableName : String := ""
  TableNames : Option (List String) := none

structure PutItemInput where
  ConditionExpression : String := ""
  ConditionalOperator : String := ""
  Expected : Option (List (String × ExpectedAttributeValue)) := none
  ExpressionAttributeNames : Option (List (String × String)) := none
  ExpressionAttributeValues : AttributeMap := none
  Item : AttributeMap := none
  ReturnConsumedCapacity : String := ""
  ReturnItemCollectionMetrics : String := ""
  ReturnValues : String := ""
  TableName : String := ""

structure PutItemOutput where
  Attributes : AttributeMap := none
  ConsumedCapacity : ConsumedCapacity := {}
  ItemCollectionMetrics : ItemCollectionMetrics := {}

structure QueryInput where
  AttributesToGet : Option (List String) := none
  ConditionalOperator : String := ""
  ConsistentRead : Bool := false
  ExclusiveStartKey : AttributeMap := none
  ExpressionAttributeNames : Option (List (String × String)) := none
  ExpressionAttributeValues : AttributeMap := none
  FilterExpression : String := ""
  IndexName : String := ""
  KeyConditions : Option (List (String × Condition)) := none
  Limit : Int := 0
  ProjectionExpression : String := ""
  QueryFilter : Option (List (String × Condition)) := none
  ReturnConsumedCapacity : String := ""
  ScanIndexForward : Bool := false
  Select : String := ""
  TableName : String := ""

structure QueryOutput where
  ConsumedCapacity : ConsumedCapacity := {}
  Count : Int := 0
  Items : Option (List AttributeMap) := none
  LastEvaluatedKey : AttributeMap := none
  ScannedCount : Int := 0

structure ScanInput where
  AttributesToGet : Option (List String) := none
  ConditionalOperator : String := ""
  ExclusiveStartKey : AttributeMap := none
  ExpressionAttributeNames : Option (List (String × String)) := none
  ExpressionAttributeValues : AttributeMap := none
  FilterExpression : String := ""
  Limit : Int := 0
  ProjectionExpression : String := ""
  ReturnConsumedCapacity : String := ""
  ScanFilter : Option (List (String × Condition)) := none
  Segment : Int := 0
  Select : String := ""
  TableName : String := ""
  TotalSegments : Int := 0

structure ScanOutput where
  ConsumedCapacity : ConsumedCapacity := {}
  Count : Int := 0
  Items : Option (List AttributeMap) := none
  LastEvaluatedKey : AttributeMap := none
  ScannedCount : Int := 0

structure UpdateItemInput where
  AttributeUpdates : Option (List (String × AttributeValueUpdate)) := none
  ConditionExpression : String := ""
  ConditionalOperator : String := ""
  Expected : Option (List (String × ExpectedAttributeValue)) := none
  ExpressionAttributeNames : Option (List (String × String)) := none
  ExpressionAttributeValues : AttributeMap := none
  Key : AttributeMap := none
  ReturnConsumedCapacity : String := ""
  ReturnItemCollectionMetrics : String := ""
  ReturnValues : String := ""
  TableName : String := ""
  UpdateExpression : String := ""

structure UpdateItemOutput where
  Attributes : AttributeMap := none
  ConsumedCapacity : ConsumedCapacity := {}
  ItemCollectionMetrics : ItemCollectionMetrics := {}

structure UpdateTableInput where
  GlobalSecondaryIndexUpdates : Option (List GlobalSecondaryIndexUpdate) := none
  ProvisionedThroughput : ProvisionedThroughput := {}
  TableName : String := ""

structure UpdateTableOutput where
  TableDescription : TableDescription := {}

/-! ## The client and its transport -/

/-- Go `aws.Credentials`, opaque to this package. -/
structure Credentials where
  id : String := ""

/-- Go `*http.Client`, identified by the pointer. -/
structure HTTPClient where
  id : Nat := 0

/-- Go `aws.Context`, with the fields the composite literal in `New` sets. -/
structure Context where
  Credentials : Credentials := {}
  Service : String := ""
  Region : String := ""

/-- Go `aws.JSONClient`, with the fields the composite literal in `New` sets. -/
structure JSONClient where
  Context : Context := {}
  Client : HTTPClient := {}
  Endpoint : String := ""
  JSONVersion : String := ""
  TargetPrefix : String := ""

/-- `DynamoDB` (dynamodb.go, lines 14-16). `client` is the pointer `New` stores, which is
never nil. -/
structure DynamoDB where
  client : JSONClient

/-- What `New` takes from other packages: `http.DefaultClient` and `endpoints.Lookup`
(which returns endpoint, service, region). -/
structure Env where
  DefaultClient : HTTPClient
  Lookup : String → String → String × String × String

/-- `New` (dynamodb.go, lines 19-39). `client = none` is the nil pointer. The assignment
`service := "dynamodb"` of the source is overwritten by the result of `Lookup` before any use. -/
def New (env : Env) (creds : Credentials) (region : String) (client : Option HTTPClient) :
    DynamoDB :=
  let client := match client with
    | none => env.DefaultClient
    | some cl => cl
  let looked := env.Lookup "dynamodb" region
  let endpoint := looked.1
  let service := looked.2.1
  let region := looked.2.2
  { client :=
      { Context := { Credentials := creds, Service := service, Region := region }
        Client := client
        Endpoint := endpoint
        JSONVersion := "1.0"
        TargetPrefix := "DynamoDB_20120810" } }

/-- The dynamic types that reach the transport as `interface{}` arguments. -/
inductive Shape where
  | BatchGetItemInput | BatchGetItemOutput
  | BatchWriteItemInput | BatchWriteItemOutput
  | CreateTableInput | CreateTableOutput
  | DeleteItemInput | DeleteItemOutput
  | DeleteTableInput | DeleteTableOutput
  | DescribeTableInput | DescribeTableOutput
  | GetItemInput | GetItemOutput
  | ListTablesInput | ListTablesOutput
  | PutItemInput | PutItemOutput
  | QueryInput | QueryOutput
  | ScanInput | ScanOutput
  | UpdateItemInput | UpdateItemOutput
  | UpdateTableInput | UpdateTableOutput
  deriving DecidableEq

/-- The Go type a `Shape` stands for. -/
@[reducible] def Shape.type : Shape → Type
  | .BatchGetItemInput => dynamodb.BatchGetItemInput
  | .BatchGetItemOutput => dynamodb.BatchGetItemOutput
  | .BatchWriteItemInput => dynamodb.BatchWriteItemInput
  | .BatchWriteItemOutput => dynamodb.BatchWriteItemOutput
  | .CreateTableInput => dynamodb.CreateTableInput
  | .CreateTableOutput => dynamodb.CreateTableOutput
  | .DeleteItemInput => dynamodb.DeleteItemInput
  | .DeleteItemOutput => dynamodb.DeleteItemOutput
  | .DeleteTableInput => dynamodb.DeleteTableInput
  | .DeleteTableOutput => dynamodb.DeleteTableOutput
  | .DescribeTableInput => dynamodb.DescribeTableInput
  | .DescribeTableOutput => dynamodb.DescribeTableOutput
  | .GetItemInput => dynamodb.GetItemInput
  | .GetItemOutput => dynamodb.GetItemOutput
  | .ListTablesInput => dynamodb.ListTablesInput
  | .ListTablesOutput => dynamodb.ListTablesOutput
  | .PutItemInput => dynamodb.PutItemInput
  | .PutItemOutput => dynamodb.PutItemOutput
  | .QueryInput => dynamodb.QueryInput
  | .QueryOutput => dynamodb.QueryOutput
  | .ScanInput => dynamodb.ScanInput
  | .ScanOutput => dynamodb.ScanOutput
  | .UpdateItemInput => dynamodb.UpdateItemInput
  | .UpdateItemOutput => dynamodb.UpdateItemOutput
  | .UpdateTableInput => dynamodb.UpdateTableInput
  | .UpdateTableOutput => dynamodb.UpdateTableOutput

/-- One invocation of `aws.JSONClient.Do`: the receiver, the three strings, the request value
and the value `resp` points to when the call is made. -/
structure Call where
  client : JSONClient
  action : String
  method : String
  uri : String
  reqShape : Shape
  req : reqShape.type
  respShape : Shape
  resp : respShape.type

/-- The behaviour of the external transport `aws.JSONClient.Do`, a parameter: from a call and
the state of the outside world (network, server) it gives the value it leaves in `*resp`, the
error it returns, and the next state of the outside world. -/
structure Transport (σ : Type) where
  run : (call : Call) → σ → (call.respShape.type × Option Error) × σ

/-- The world an operation runs in: the outside world, and the transport invocations made so
far, oldest first. -/
structure World (σ : Type) where
  net : σ
  calls : List Call

/-- The call `c.Do(action, method, uri, req, resp)`: the invocation is recorded and the
transport decides the rest. The result holds the value of `*resp` after the call and the
returned error. -/
def JSONClient.Do {σ : Type} (t : Transport σ) (c : JSONClient) (action method uri : String)
    (R : Shape) (req : R.type) (P : Shape) (resp : P.type) (w : World σ) :
    (P.type × Option Error) × World σ :=
  let call : Call := ⟨c, action, method, uri, R, req, P, resp⟩
  let out := t.run call w.net
  (out.1, { net := out.2, calls := w.calls ++ [call] })

/-! ## The thirteen operations

Each returns the pair `(resp, err)` of the Go method (`resp` is the value the returned pointer
points to) and the world after the call. -/

/-- `BatchGetItem` (dynamodb.go, lines 80-84). -/
def DynamoDB.BatchGetItem {σ : Type} (t : Transport σ) (c : DynamoDB) (req : BatchGetItemInput)
    (w : World σ) : (BatchGetItemOutput × Option Error) × World σ :=
  let resp : BatchGetItemOutput := {}
  JSONClient.Do t c.client "BatchGetItem" "POST" "/" Shape.BatchGetItemInput req
    Shape.BatchGetItemOutput resp w

/-- `BatchWriteItem` (dynamodb.go, lines 136-140). -/
def DynamoDB.BatchWriteItem {σ : Type} (t : Transport σ) (c : DynamoDB)
    (req : BatchWriteItemInput) (w : World σ) :
    (BatchWriteItemOutput × Option Error) × World σ :=
  let resp : BatchWriteItemOutput := {}
  JSONClient.Do t c.client "BatchWriteItem" "POST" "/" Shape.BatchWriteItemInput req
    Shape.BatchWriteItemOutput resp w

/-- `CreateTable` (dynamodb.go, lines 153-157). -/
def DynamoDB.CreateTable {σ : Type} (t : Transport σ) (c : DynamoDB) (req : CreateTableInput)
    (w : World σ) : (CreateTableOutput × Option Error) × World σ :=
  let resp : CreateTableOutput := {}
  JSONClient.Do t c.client "CreateTable" "POST" "/" Shape.CreateTableInput req
    Shape.CreateTableOutput resp w

/-- `DeleteItem` (dynamodb.go, lines 169-173). -/
def DynamoDB.DeleteItem {σ : Type} (t : Transport σ) (c : DynamoDB) (req : DeleteItemInput)
    (w : World σ) : (DeleteItemOutput × Option Error) × World σ :=
  let resp : DeleteItemOutput := {}
  JSONClient.Do t c.client "DeleteItem" "POST" "/" Shape.DeleteItemInput req
    Shape.DeleteItemOutput resp w

/-- `DeleteTable` (dynamodb.go, lines 184-188). -/
def DynamoDB.DeleteTable {σ : Type} (t : Transport σ) (c : DynamoDB) (req : DeleteTableInput)
    (w : World σ) : (DeleteTableOutput × Option Error) × World σ :=
  let resp : DeleteTableOutput := {}
  JSONClient.Do t c.client "DeleteTable" "POST" "/" Shape.DeleteTableInput req
    Shape.DeleteTableOutput resp w

/-- `DescribeTable` (dynamodb.go, lines 193-197). -/
def DynamoDB.DescribeTable {σ : Type} (t : Transport σ) (c : DynamoDB)
    (req : DescribeTableInput) (w : World σ) :
    (DescribeTableOutput × Option Error) × World σ :=
  let resp : DescribeTableOutput := {}
  JSONClient.Do t c.client "DescribeTable" "POST" "/" Shape.DescribeTableInput req
    Shape.DescribeTableOutput resp w

/-- `GetItem` (dynamodb.go, lines 206-210). -/
def DynamoDB.GetItem {σ : Type} (t : Transport σ) (c : DynamoDB) (req : GetItemInput)
    (w : World σ) : (GetItemOutput × Option Error) × World σ :=
  let resp : GetItemOutput := {}
  JSONClient.Do t c.client "GetItem" "POST" "/" Shape.GetItemInput req
    Shape.GetItemOutput resp w

/-- `ListTables` (dynamodb.go, lines 215-219). -/
def DynamoDB.ListTables {σ : Type} (t : Transport σ) (c : DynamoDB) (req : ListTablesInput)
    (w : World σ) : (ListTablesOutput × Option Error) × World σ :=
  let resp : ListTablesOutput := {}
  JSONClient.Do t c.client "ListTables" "POST" "/" Shape.ListTablesInput req
    Shape.ListTablesOutput resp w

/-- `PutItem` (dynamodb.go, lines 238-242). -/
def DynamoDB.PutItem {σ : Type} (t : Transport σ) (c : DynamoDB) (req : PutItemInput)
    (w : World σ) : (PutItemOutput × Option Error) × World σ :=
  let resp : PutItemOutput := {}
  JSONClient.Do t c.client "PutItem" "POST" "/" Shape.PutItemInput req
    Shape.PutItemOutput resp w

/-- `Query` (dynamodb.go, lines 263-267). -/
def DynamoDB.Query {σ : Type} (t : Transport σ) (c : DynamoDB) (req : QueryInput)
    (w : World σ) : (QueryOutput × Option Error) × World σ :=
  let resp : QueryOutput := {}
  JSONClient.Do t c.client "Query" "POST" "/" Shape.QueryInput req
    Shape.QueryOutput resp w

/-- `Scan` (dynamodb.go, lines 282-286). -/
def DynamoDB.Scan {σ : Type} (t : Transport σ) (c : DynamoDB) (req : ScanInput)
    (w : World σ) : (ScanOutput × Option Error) × World σ :=
  let resp : ScanOutput := {}
  JSONClient.Do t c.client "Scan" "POST" "/" Shape.ScanInput req
    Shape.ScanOutput resp w

/-- `UpdateItem` (dynamodb.go, lines 295-299). -/
def DynamoDB.UpdateItem {σ : Type} (t : Transport σ) (c : DynamoDB) (req : UpdateItemInput)
    (w : World σ) : (UpdateItemOutput × Option Error) × World σ :=
  let resp : UpdateItemOutput := {}
  JSONClient.Do t c.client "UpdateItem" "POST" "/" Shape.UpdateItemInput req
    Shape.UpdateItemOutput resp w

/-- `UpdateTable` (dynamodb.go, lines 314-318). -/
def DynamoDB.UpdateTable {σ : Type} (t : Transport σ) (c : DynamoDB) (req : UpdateTableInput)
    (w : World σ) : (UpdateTableOutput × Option Error) × World σ :=
  let resp : UpdateTableOutput := {}
  JSONClient.Do t c.client "UpdateTable" "POST" "/" Shape.UpdateTableInput req
    Shape.UpdateTableOutput resp w

/-! ## The method table -/

/-- The thirteen methods of `*DynamoDB`. -/
inductive Operation where
  | BatchGetItem | BatchWriteItem | CreateTable | DeleteItem | DeleteTable | DescribeTable
  | GetItem | ListTables | PutItem | Query | Scan | UpdateItem | UpdateTable
  deriving DecidableEq

/-- The name of the Go method. -/
def Operation.name : Operation → String
  | .BatchGetItem => "BatchGetItem"
  | .BatchWriteItem => "BatchWriteItem"
  | .CreateTable => "CreateTable"
  | .DeleteItem => "DeleteItem"
  | .DeleteTable => "DeleteTable"
  | .DescribeTable => "DescribeTable"
  | .GetItem => "GetItem"
  | .ListTables => "ListTables"
  | .PutItem => "PutItem"
  | .Query => "Query"
  | .Scan => "Scan"
  | .UpdateItem => "UpdateItem"
  | .UpdateTable => "UpdateTable"

/-- The type of the method's `req` parameter. -/
@[reducible] def Operation.Input : Operation → Shape
  | .BatchGetItem => .BatchGetItemInput
  | .BatchWriteItem => .BatchWriteItemInput
  | .CreateTable => .CreateTableInput
  | .DeleteItem => .DeleteItemInput
  | .DeleteTable => .DeleteTableInput
  | .DescribeTable => .DescribeTableInput
  | .GetItem => .GetItemInput
  | .ListTables => .ListTablesInput
  | .PutItem => .PutItemInput
  | .Query => .QueryInput
  | .Scan => .ScanInput
  | .UpdateItem => .UpdateItemInput
  | .UpdateTable => .UpdateTableInput

/-- The type the method's `resp` result points to. -/
@[reducible] def Operation.Output : Operation → Shape
  | .BatchGetItem => .BatchGetItemOutput
  | .BatchWriteItem => .BatchWriteItemOutput
  | .CreateTable => .CreateTableOutput
  | .DeleteItem => .DeleteItemOutput
  | .DeleteTable => .DeleteTableOutput
  | .DescribeTable => .DescribeTableOutput
  | .GetItem => .GetItemOutput
  | .ListTables => .ListTablesOutput
  | .PutItem => .PutItemOutput
  | .Query => .QueryOutput
  | .Scan => .ScanOutput
  | .UpdateItem => .UpdateItemOutput
  | .UpdateTable => .UpdateTableOutput

/-- Calling the method of that name on `c` with `req`. -/
def Operation.invoke {σ : Type} (t : Transport σ) (c : DynamoDB) :
    (op : Operation) → op.Input.type → World σ → (op.Output.type × Option Error) × World σ
  | .BatchGetItem, req, w => c.BatchGetItem t req w
  | .BatchWriteItem, req, w => c.BatchWriteItem t req w
  | .CreateTable, req, w => c.CreateTable t req w
  | .DeleteItem, req, w => c.DeleteItem t req w
  | .DeleteTable, req, w => c.DeleteTable t req w
  | .DescribeTable, req, w => c.DescribeTable t req w
  | .GetItem, req, w => c.GetItem t req w
  | .ListTables, req, w => c.ListTables t req w
  | .PutItem, req, w => c.PutItem t req w
  | .Query, req, w => c.Query t req w
  | .Scan, req, w => c.Scan t req w
  | .UpdateItem, req, w => c.UpdateItem t req w
  | .UpdateTable, req, w => c.UpdateTable t req w

/-- Modelled from the spec: the operation-selection header, which the transport (not in this
package) sets; section 6 gives its value as the service prefix, a dot, the operation name. -/
def targetHeader (c : JSONClient) (action : String) : String :=
  c.TargetPrefix ++ "." ++ action

/-! ## Measures on requests that the claims speak of -/

/-- Go `len` of a slice. -/
def sliceLen {α : Type} : Option (List α) → Nat
  | none => 0
  | some xs => xs.length

/-- The number of keys a BatchGetItem request names, over all tables. -/
def BatchGetItemInput.keyCount (r : BatchGetItemInput) : Nat :=
  ((r.RequestItems.getD []).map (fun e => sliceLen e.2.Keys)).sum

/-- The number of write requests a BatchWriteItem request holds, over all tables. -/
def BatchWriteItemInput.writeCount (r : BatchWriteItemInput) : Nat :=
  ((r.RequestItems.getD []).map (fun e => sliceLen e.2)).sum

/-- A write request is against the item with key `key`: it deletes that key, or puts an item
that carries every attribute of the key. -/
def WriteRequest.targets (wr : WriteRequest) (key : List (String × AttributeValue)) : Prop :=
  wr.DeleteRequest.Key = some key ∨
    ∃ item, wr.PutRequest.Item = some item ∧ ∀ kv ∈ key, kv ∈ item

/-- A BatchWriteItem request holds two write requests against the same (table, key) pair. -/
def BatchWriteItemInput.hasKeyCollision (r : BatchWriteItemInput) : Prop :=
  ∃ (table : String) (ws : List WriteRequest) (i j : Nat) (key : List (String × AttributeValue))
    (a b : WriteRequest), (table, some ws) ∈ r.RequestItems.getD [] ∧ i < j ∧ key ≠ [] ∧
      ws[i]? = some a ∧ ws[j]? = some b ∧ a.targets key ∧ b.targets key

/-- Some key condition of a Query request is an equality. -/
def QueryInput.hasEQ (r : QueryInput) : Bool :=
  (r.KeyConditions.getD []).any (fun e => e.2.ComparisonOperator == "EQ")

/-! ## Sample transports and requests -/

/-- A transport that reports success and leaves `*resp` as it found it. -/
def okTransport : Transport Unit where
  run call s := ((call.resp, none), s)

/-- A transport that reports the failure `e` and leaves `*resp` as it found it. -/
def failTransport (e : Error) : Transport Unit where
  run call s := ((call.resp, some e), s)

/-- A client as `New` builds it. -/
def sampleClient : DynamoDB :=
  New ⟨{ id := 7 }, fun _ region => ("https://dynamodb.example", "dynamodb", region)⟩
    { id := "k" } "us-east-1" none

/-- The world before any call. -/
def freshWorld : World Unit := ⟨(), []⟩

/-- The key `{"id": {"S": "1"}}`. -/
def sampleKey : List (String × AttributeValue) :=
  [("id", { AttributeValue.zero with S := "1" })]

/-- A delete of `sampleKey`. -/
def sampleDelete : WriteRequest := { DeleteRequest := { Key := some sampleKey } }

/-- A put of an item whose key is `sampleKey`. -/
def samplePut : WriteRequest :=
  { PutRequest := { Item := some (sampleKey ++ [("v", { AttributeValue.zero with N := "2" })]) } }

/-- Five write requests left unprocessed under table `t`. -/
def sampleUnprocessed : List (String × Option (List WriteRequest)) :=
  [("t", some (List.replicate 5 samplePut))]

/-- What `partialTransport` leaves in `*resp`: `sampleUnprocessed` as the unprocessed items of
a BatchWriteItem response, any other response untouched. -/
def partialResponse : (P : Shape) → P.type → P.type
  | .BatchWriteItemOutput, r => { r with UnprocessedItems := some sampleUnprocessed }
  | _, r => r

/-- A transport that reports success and, for BatchWriteItem, leaves `sampleUnprocessed` in the
response. -/
def partialTransport : Transport Unit where
  run call s := ((partialResponse call.respShape call.resp, none), s)

/-- A BatchWriteItem request holding 25 write requests under one table. -/
def write25 : BatchWriteItemInput :=
  { RequestItems := some [("t", some (List.replicate 25 samplePut))] }

/-- A BatchGetItem request naming 101 keys under one table. -/
def get101 : BatchGetItemInput :=
  { RequestItems := some [("t", { Keys := some (List.replicate 101 (some sampleKey)) })] }

/-- A BatchWriteItem request holding 26 write requests under one table. -/
def write26 : BatchWriteItemInput :=
  { RequestItems := some [("t", some (List.replicate 26 samplePut))] }

/-- A BatchWriteItem request that puts and deletes the same item of one table. -/
def putAndDelete : BatchWriteItemInput :=
  { RequestItems := some [("t", some [samplePut, sampleDelete])] }

/-! ## The wire form of `AttributeValue`

The package declares the wire form through `encoding/json` struct tags; the transport applies
`json.Marshal` to the request and `json.Unmarshal` to the response body. The definitions below
are those two functions at the type `AttributeValue`, on JSON trees rather than JSON text.
A tree's numbers are integers (no field of `AttributeValue` is numeric). -/

/-- A JSON value. An object keeps its members in order, as the text does. -/
inductive JSON where
  | null
  | bool (b : Bool)
  | num (n : Int)
  | str (s : String)
  | arr (xs : List JSON)
  | obj (kvs : List (String × JSON))

/-- The keys of a JSON object, in order (none for another kind of value). -/
def JSON.keys : JSON → List String
  | .obj kvs => kvs.map Prod.fst
  | _ => []

mutual
/-- The nesting depth of a JSON value: how many arrays and objects are open at its deepest
point. -/
def JSON.depth : JSON → Nat
  | .arr xs => depthOfElems xs + 1
  | .obj kvs => depthOfMembers kvs + 1
  | _ => 0
/-- The greatest depth among the elements of an array. -/
def depthOfElems : List JSON → Nat
  | [] => 0
  | x :: xs => max x.depth (depthOfElems xs)
/-- The greatest depth among the member values of an object. -/
def depthOfMembers : List (String × JSON) → Nat
  | [] => 0
  | (_, v) :: kvs => max v.depth (depthOfMembers kvs)
end

/-- The scanner of `encoding/json` refuses text that nests arrays and objects deeper than
this (`maxNestingDepth`). -/
def maxNestingDepth : Nat := 10000

/-- The byte with value `n` modulo 256. -/
def byte (n : Nat) : Byte := ⟨n % 256, Nat.mod_lt n (by decide)⟩

/-- The alphabet of `base64.StdEncoding`. -/
def base64Alphabet : List Char :=
  "ABCDEFGHIJKLMNOPQRSTUVWXYZabcdefghijklmnopqrstuvwxyz0123456789+/".data

/-- The character for the 6-bit value `i`. -/
def base64Digit (i : Nat) : Char := base64Alphabet.getD i '='

/-- The 6-bit value of a character of the alphabet. -/
def base64Value (c : Char) : Option Nat :=
  if base64Alphabet.indexOf c < 64 then some (base64Alphabet.indexOf c) else none

/-- `base64.StdEncoding` encoding, with padding. -/
def base64EncodeChars : List Byte → List Char
  | [] => []
  | [a] => [base64Digit (a.val / 4), base64Digit (a.val % 4 * 16), '=', '=']
  | [a, b] => [base64Digit (a.val / 4), base64Digit (a.val % 4 * 16 + b.val / 16),
      base64Digit (b.val % 16 * 4), '=']
  | a :: b :: c :: rest =>
    base64Digit (a.val / 4) :: base64Digit (a.val % 4 * 16 + b.val / 16) ::
      base64Digit (b.val % 16 * 4 + c.val / 64) :: base64Digit (c.val % 64) ::
      base64EncodeChars rest

/-- `base64.StdEncoding.EncodeToString`. -/
def base64Encode (bs : List Byte) : String := String.mk (base64EncodeChars bs)

/-- `base64.StdEncoding` decoding of text without line breaks: quanta of four characters, the
last one possibly padded; `none` is `CorruptInputError`. -/
def base64DecodeChars : List Char → Option (List Byte)
  | [] => some []
  | c0 :: c1 :: c2 :: c3 :: rest =>
    match base64Value c0, base64Value c1, base64Value c2, base64Value c3 with
    | some v0, some v1, some v2, some v3 =>
      (base64DecodeChars rest).map
        (fun bs => byte (v0 * 4 + v1 / 16) :: byte (v1 % 16 * 16 + v2 / 4) ::
          byte (v2 % 4 * 64 + v3) :: bs)
    | some v0, some v1, some v2, none =>
      if c3 = '=' ∧ rest = [] then
        some [byte (v0 * 4 + v1 / 16), byte (v1 % 16 * 16 + v2 / 4)]
      else none
    | some v0, some v1, none, none =>
      if c2 = '=' ∧ c3 = '=' ∧ rest = [] then some [byte (v0 * 4 + v1 / 16)] else none
    | _, _, _, _ => none
  | _ => none

/-- `base64.StdEncoding.DecodeString`: carriage returns and line feeds are skipped. -/
def base64Decode (s : String) : Option (List Byte) :=
  base64DecodeChars (s.data.filter (fun c => c != '\r' && c != '\n'))

/-- `json.Marshal` of a `[]byte` that is encoded at all: nil is `null`, otherwise the base64
text. -/
def marshalBytes : Option (List Byte) → JSON
  | none => .null
  | some bs => .str (base64Encode bs)

mutual
/-- The members of the JSON object `json.Marshal` makes of an `AttributeValue`: the fields in
declaration order, each under its tag name, each left out when empty (`omitempty`: false, the
empty string, a slice or map of length zero). -/
def AttributeValue.marshalMembers : AttributeValue → List (String × JSON)
  | ⟨B, BOOL, BS, L, M, N, NS, NULL, S, SS⟩ =>
    (if sliceLen B = 0 then [] else [("B", marshalBytes B)]) ++
    (if BOOL then [("BOOL", .bool true)] else []) ++
    (if sliceLen BS = 0 then [] else [("BS", .arr ((BS.getD []).map marshalBytes))]) ++
    (match L with
      | none => []
      | some xs => if xs.length = 0 then [] else [("L", .arr (marshalList xs))]) ++
    (match M with
      | none => []
      | some es => if es.length = 0 then [] else [("M", .obj (marshalMap es))]) ++
    (if N.length = 0 then [] else [("N", .str N)]) ++
    (if sliceLen NS = 0 then [] else [("NS", .arr ((NS.getD []).map JSON.str))]) ++
    (if NULL then [("NULL", .bool true)] else []) ++
    (if S.length = 0 then [] else [("S", .str S)]) ++
    (if sliceLen SS = 0 then [] else [("SS", .arr ((SS.getD []).map JSON.str))])
/-- The elements of a `[]AttributeValue`, in order. -/
def marshalList : List AttributeValue → List JSON
  | [] => []
  | x :: xs => .obj x.marshalMembers :: marshalList xs
/-- The members of a `map[string]AttributeValue`, in key order. -/
def marshalMap : List (String × AttributeValue) → List (String × JSON)
  | [] => []
  | (k, x) :: es => (k, .obj x.marshalMembers) :: marshalMap es
end

/-- `json.Marshal` of an `AttributeValue`: a struct is encoded as a JSON object. -/
def AttributeValue.marshal (v : AttributeValue) : JSON := .obj v.marshalMembers

/-- The fields of an `AttributeValue` that are populated, that is, not empty in the sense of
`omitempty`, in declaration order. -/
def AttributeValue.populated (v : AttributeValue) : List String :=
  (if sliceLen v.B = 0 then [] else ["B"]) ++
  (if v.BOOL then ["BOOL"] else []) ++
  (if sliceLen v.BS = 0 then [] else ["BS"]) ++
  (if sliceLen v.L = 0 then [] else ["L"]) ++
  (if sliceLen v.M = 0 then [] else ["M"]) ++
  (if v.N.length = 0 then [] else ["N"]) ++
  (if sliceLen v.NS = 0 then [] else ["NS"]) ++
  (if v.NULL then ["NULL"] else []) ++
  (if v.S.length = 0 then [] else ["S"]) ++
  (if sliceLen v.SS = 0 then [] else ["SS"])

/-- The errors `json.Unmarshal` reports on a JSON value: a value of a kind the Go type cannot
take (`UnmarshalTypeError`), corrupt base64 text, or nesting beyond `maxNestingDepth` (the
scanner's "exceeded max depth"). -/
inductive DecodeError where
  | unmarshalType
  | corruptBase64
  | exceededMaxDepth
  deriving DecidableEq

/-- The decoder keeps the first error it meets and goes on. -/
def firstError : Option DecodeError → Option DecodeError → Option DecodeError
  | some e, _ => some e
  | none, e => e

/-- Case folding of one character of an object key, as far as it can reach an ASCII letter:
lower-case ASCII letters, the long s and the Kelvin sign. -/
def foldRune (c : Char) : Char :=
  if 'a' ≤ c ∧ c ≤ 'z' then Char.ofNat (c.toNat - 32)
  else if c = 'ſ' then 'S'
  else if c = 'K' then 'K'
  else c

/-- The folded form of an object key. A key selects the struct field whose name it equals
exactly or, failing that, up to folding; the field names here are their own folded forms and
differ from one another, so the field selected is the one whose name is the folded key. -/
def foldName (k : String) : String := String.mk (k.data.map foldRune)

/-- Decoding into a `string`. -/
def unmarshalString (cur : String) : JSON → String × Option DecodeError
  | .str s => (s, none)
  | .null => (cur, none)
  | _ => (cur, some .unmarshalType)

/-- Decoding into a `bool`. -/
def unmarshalBool (cur : Bool) : JSON → Bool × Option DecodeError
  | .bool b => (b, none)
  | .null => (cur, none)
  | _ => (cur, some .unmarshalType)

/-- Decoding into a `uint8`. -/
def unmarshalByte (cur : Byte) : JSON → Byte × Option DecodeError
  | .num n => if 0 ≤ n ∧ n ≤ 255 then (byte n.toNat, none) else (cur, some .unmarshalType)
  | .null => (cur, none)
  | _ => (cur, some .unmarshalType)

/-- Decoding the elements of a JSON array into a `[]string`: element `i` is decoded into the
old element `i` when there is one, into the zero value otherwise. A slice is modelled by its
elements up to its length; what an earlier, longer decoding of the same key left beyond the
length, in the capacity of the slice, is not represented. -/
def unmarshalStringElems (old : List String) : List JSON → List String × Option DecodeError
  | [] => ([], none)
  | x :: xs =>
    ((unmarshalString (old.headD "") x).1 :: (unmarshalStringElems old.tail xs).1,
      firstError (unmarshalString (old.headD "") x).2 (unmarshalStringElems old.tail xs).2)

/-- Decoding into a `[]string`. -/
def unmarshalStrings (cur : Option (List String)) : JSON → Option (List String) × Option DecodeError
  | .arr xs => (some (unmarshalStringElems (cur.getD []) xs).1,
      (unmarshalStringElems (cur.getD []) xs).2)
  | .null => (none, none)
  | _ => (cur, some .unmarshalType)

/-- Decoding the elements of a JSON array of numbers into a `[]byte`, element by element as
for `unmarshalStringElems`. -/
def unmarshalByteElems (old : List Byte) : List JSON → List Byte × Option DecodeError
  | [] => ([], none)
  | x :: xs =>
    ((unmarshalByte (old.headD 0) x).1 :: (unmarshalByteElems old.tail xs).1,
      firstError (unmarshalByte (old.headD 0) x).2 (unmarshalByteElems old.tail xs).2)

/-- Decoding into a `[]byte`: base64 text, or an array of numbers. -/
def unmarshalBytes (cur : Option (List Byte)) : JSON → Option (List Byte) × Option DecodeError
  | .str s =>
    match base64Decode s with
    | some bs => (some bs, none)
    | none => (cur, some .corruptBase64)
  | .arr xs => (some (unmarshalByteElems (cur.getD []) xs).1,
      (unmarshalByteElems (cur.getD []) xs).2)
  | .null => (none, none)
  | _ => (cur, some .unmarshalType)

/-- Decoding the elements of a JSON array into a `[][]byte`, element by element as for
`unmarshalStringElems`. -/
def unmarshalBytesElems (old : List (Option (List Byte))) :
    List JSON → List (Option (List Byte)) × Option DecodeError
  | [] => ([], none)
  | x :: xs =>
    ((unmarshalBytes (old.headD none) x).1 :: (unmarshalBytesElems old.tail xs).1,
      firstError (unmarshalBytes (old.headD none) x).2 (unmarshalBytesElems old.tail xs).2)

/-- Decoding into a `[][]byte`. -/
def unmarshalByteSlices (cur : Option (List (Option (List Byte)))) :
    JSON → Option (List (Option (List Byte))) × Option DecodeError
  | .arr xs => (some (unmarshalBytesElems (cur.getD []) xs).1,
      (unmarshalBytesElems (cur.getD []) xs).2)
  | .null => (none, none)
  | _ => (cur, some .unmarshalType)

/-- Go `<` on strings, on their characters: byte-wise order of UTF-8 text, which is the order
of the code points. -/
def stringLess : List Char → List Char → Bool
  | [], [] => false
  | [], _ :: _ => true
  | _ :: _, [] => false
  | a :: as, b :: bs =>
    if a.toNat < b.toNat then true
    else if b.toNat < a.toNat then false
    else stringLess as bs

/-- Storing `m[k] = v` in a map whose entries are kept in increasing key order. -/
def mapInsert {α : Type} (k : String) (v : α) : List (String × α) → List (String × α)
  | [] => [(k, v)]
  | (k0, v0) :: rest =>
    if stringLess k.data k0.data then (k, v) :: (k0, v0) :: rest
    else if k = k0 then (k, v) :: rest
    else (k0, v0) :: mapInsert k v rest

mutual
/-- `json.Unmarshal` of a JSON value into an `AttributeValue` that currently holds `cur`: the
value left in it, and the error returned. -/
def AttributeValue.unmarshalInto (cur : AttributeValue) :
    JSON → AttributeValue × Option DecodeError
  | .obj kvs => unmarshalFields cur kvs
  | .null => (cur, none)
  | _ => (cur, some .unmarshalType)
/-- The members of the object, in order: each is decoded into the field its key selects, and
skipped when it selects none. -/
def unmarshalFields (cur : AttributeValue) :
    List (String × JSON) → AttributeValue × Option DecodeError
  | [] => (cur, none)
  | (k, v) :: rest =>
    let step : AttributeValue × Option DecodeError :=
      if foldName k = "B" then ({ cur with B := (unmarshalBytes cur.B v).1 }, (unmarshalBytes cur.B v).2)
      else if foldName k = "BOOL" then
        ({ cur with BOOL := (unmarshalBool cur.BOOL v).1 }, (unmarshalBool cur.BOOL v).2)
      else if foldName k = "BS" then
        ({ cur with BS := (unmarshalByteSlices cur.BS v).1 }, (unmarshalByteSlices cur.BS v).2)
      else if foldName k = "L" then
        match v with
        | .arr xs => ({ cur with L := some (unmarshalList (cur.L.getD []) xs).1 },
            (unmarshalList (cur.L.getD []) xs).2)
        | .null => ({ cur with L := none }, none)
        | _ => (cur, some .unmarshalType)
      else if foldName k = "M" then
        match v with
        | .obj es => ({ cur with M := some (unmarshalMap (cur.M.getD []) es).1 },
            (unmarshalMap (cur.M.getD []) es).2)
        | .null => ({ cur with M := none }, none)
        | _ => (cur, some .unmarshalType)
      else if foldName k = "N" then
        ({ cur with N := (unmarshalString cur.N v).1 }, (unmarshalString cur.N v).2)
      else if foldName k = "NS" then
        ({ cur with NS := (unmarshalStrings cur.NS v).1 }, (unmarshalStrings cur.NS v).2)
      else if foldName k = "NULL" then
        ({ cur with NULL := (unmarshalBool cur.NULL v).1 }, (unmarshalBool cur.NULL v).2)
      else if foldName k = "S" then
        ({ cur with S := (unmarshalString cur.S v).1 }, (unmarshalString cur.S v).2)
      else if foldName k = "SS" then
        ({ cur with SS := (unmarshalStrings cur.SS v).1 }, (unmarshalStrings cur.SS v).2)
      else (cur, none)
    ((unmarshalFields step.1 rest).1, firstError step.2 (unmarshalFields step.1 rest).2)
/-- The elements of a JSON array decoded into a `[]AttributeValue`: element `i` is decoded
into the old element `i` when there is one, into the zero value otherwise (the slice is its
elements up to its length, as for `unmarshalStringElems`). -/
def unmarshalList (old : List AttributeValue) :
    List JSON → List AttributeValue × Option DecodeError
  | [] => ([], none)
  | x :: xs =>
    ((AttributeValue.unmarshalInto (old.headD AttributeValue.zero) x).1 ::
        (unmarshalList old.tail xs).1,
      firstError (AttributeValue.unmarshalInto (old.headD AttributeValue.zero) x).2
        (unmarshalList old.tail xs).2)
/-- The members of a JSON object decoded into a `map[string]AttributeValue`: each value is
decoded into a fresh zero value and stored under its key. -/
def unmarshalMap (acc : List (String × AttributeValue)) :
    List (String × JSON) → List (String × AttributeValue) × Option DecodeError
  | [] => (acc, none)
  | (k, v) :: rest =>
    ((unmarshalMap (mapInsert k (AttributeValue.unmarshalInto AttributeValue.zero v).1 acc)
        rest).1,
      firstError (AttributeValue.unmarshalInto AttributeValue.zero v).2
        (unmarshalMap (mapInsert k (AttributeValue.unmarshalInto AttributeValue.zero v).1 acc)
          rest).2)
end

/-- `json.Unmarshal` of a JSON value into a fresh `AttributeValue`: the text is scanned first,
and when it nests too deep the error is returned with the value untouched; otherwise the value
is decoded. -/
def AttributeValue.unmarshal (j : JSON) : AttributeValue × Option DecodeError :=
  if maxNestingDepth < j.depth then (AttributeValue.zero, some .exceededMaxDepth)
  else AttributeValue.unmarshalInto AttributeValue.zero j

/-- An `AttributeValue` with both `S` and `N` set. -/
def stringAndNumber : AttributeValue := { AttributeValue.zero with N := "1", S := "a" }

/-- A PutItem request whose item holds an `AttributeValue` with no variant set and one with
two variants set. -/
def putMalformed : PutItemInput :=
  { Item := some [("none", AttributeValue.zero), ("two", stringAndNumber)], TableName := "t" }

/-! ## Go strings and JSON text

A Go string is a sequence of bytes; a JSON string is Unicode text. The string fields of the
shapes above are the text of Go strings that are valid UTF-8: for those, `encoding/json` writes
the text itself and reads back the same bytes. The definitions below are what it does with an
arbitrary Go string. -/

/-- `utf8.RuneError`, U+FFFD. -/
def runeError : Char := Char.ofNat 0xFFFD

/-- `utf8.DecodeRune`: the first rune of a byte sequence and its width in bytes; a byte that
starts no valid encoding is `RuneError` with width 1. -/
def decodeRune : List Byte → Char × Nat
  | [] => (runeError, 0)
  | b0 :: rest =>
    if b0.val < 0x80 then (Char.ofNat b0.val, 1)
    else if b0.val < 0xC2 then (runeError, 1)
    else if b0.val < 0xE0 then
      match rest with
      | b1 :: _ =>
        if 0x80 ≤ b1.val ∧ b1.val ≤ 0xBF then
          (Char.ofNat (b0.val % 32 * 64 + b1.val % 64), 2)
        else (runeError, 1)
      | _ => (runeError, 1)
    else if b0.val < 0xF0 then
      match rest with
      | b1 :: b2 :: _ =>
        if (if b0.val = 0xE0 then 0xA0 else 0x80) ≤ b1.val ∧
            b1.val ≤ (if b0.val = 0xED then 0x9F else 0xBF) ∧
            0x80 ≤ b2.val ∧ b2.val ≤ 0xBF then
          (Char.ofNat (b0.val % 16 * 4096 + b1.val % 64 * 64 + b2.val % 64), 3)
        else (runeError, 1)
      | _ => (runeError, 1)
    else if b0.val < 0xF5 then
      match rest with
      | b1 :: b2 :: b3 :: _ =>
        if (if b0.val = 0xF0 then 0x90 else 0x80) ≤ b1.val ∧
            b1.val ≤ (if b0.val = 0xF4 then 0x8F else 0xBF) ∧
            0x80 ≤ b2.val ∧ b2.val ≤ 0xBF ∧ 0x80 ≤ b3.val ∧ b3.val ≤ 0xBF then
          (Char.ofNat (b0.val % 8 * 262144 + b1.val % 64 * 4096 + b2.val % 64 * 64
            + b3.val % 64), 4)
        else (runeError, 1)
      | _ => (runeError, 1)
    else (runeError, 1)

/-- The text `json.Marshal` writes for a Go string, rune by rune: `skip` counts the bytes still
to pass over because they belong to the rune just written; an invalid byte is written as
U+FFFD. -/
def wireRunes : Nat → List Byte → List Char
  | _, [] => []
  | skip + 1, _ :: bs => wireRunes skip bs
  | 0, b :: bs => (decodeRune (b :: bs)).1 :: wireRunes ((decodeRune (b :: bs)).2 - 1) bs

/-- The JSON string `json.Marshal` writes for a Go string. -/
def wireText (bs : List Byte) : String := String.mk (wireRunes 0 bs)

/-- `utf8.AppendRune`: the UTF-8 encoding of one character. -/
def runeBytes (c : Char) : List Byte :=
  if c.toNat < 0x80 then [byte c.toNat]
  else if c.toNat < 0x800 then [byte (0xC0 + c.toNat / 64), byte (0x80 + c.toNat % 64)]
  else if c.toNat < 0x10000 then
    [byte (0xE0 + c.toNat / 4096), byte (0x80 + c.toNat / 64 % 64), byte (0x80 + c.toNat % 64)]
  else
    [byte (0xF0 + c.toNat / 262144), byte (0x80 + c.toNat / 4096 % 64),
      byte (0x80 + c.toNat / 64 % 64), byte (0x80 + c.toNat % 64)]

/-- The UTF-8 encoding of a text. -/
def textBytes : List Char → List Byte
  | [] => []
  | c :: cs => runeBytes c ++ textBytes cs

/-- The Go string `json.Unmarshal` stores for a JSON string: the UTF-8 bytes of its text. -/
def goBytes (s : String) : List Byte := textBytes s.data

/-- A list nested `n` levels deep around the boolean true. -/
def deepList : Nat → AttributeValue
  | 0 => { AttributeValue.zero with BOOL := true }
  | n + 1 => { AttributeValue.zero with L := some [deepList n] }

/-! ## The wire form of the request shapes the claims speak of

`json.Marshal` at the types `WriteRequest`, `ExpectedAttributeValue`, `Condition` and
`QueryInput`. A field tagged `omitempty` is left out when it is false, zero, the empty string or
a slice or map of length zero; a field of struct type is never left out, tagged or not. -/

/-- `json.Marshal` of a `map[string]AttributeValue` that is encoded at all: nil is `null`. -/
def marshalAttributeMap : AttributeMap → JSON
  | none => .null
  | some es => .obj (marshalMap es)

/-- `json.Marshal` of a `DeleteRequest`: `Key` carries no `omitempty`. -/
def DeleteRequest.marshal (d : DeleteRequest) : JSON :=
  .obj [("Key", marshalAttributeMap d.Key)]

/-- `json.Marshal` of a `PutRequest`: `Item` carries no `omitempty`. -/
def PutRequest.marshal (p : PutRequest) : JSON :=
  .obj [("Item", marshalAttributeMap p.Item)]

/-- `json.Marshal` of a `WriteRequest`: both fields are structs, so both are always encoded. -/
def WriteRequest.marshal (wr : WriteRequest) : JSON :=
  .obj [("DeleteRequest", wr.DeleteRequest.marshal), ("PutRequest", wr.PutRequest.marshal)]

/-- `json.Marshal` of an `ExpectedAttributeValue`: three `omitempty` fields that can be left
out, and `Value`, a struct. -/
def ExpectedAttributeValue.marshal (e : ExpectedAttributeValue) : JSON :=
  .obj (
    (if sliceLen e.AttributeValueList = 0 then []
      else [("AttributeValueList", .arr (marshalList (e.AttributeValueList.getD [])))]) ++
    (if e.ComparisonOperator.length = 0 then []
      else [("ComparisonOperator", .str e.ComparisonOperator)]) ++
    (if e.Exists then [("Exists", .bool true)] else []) ++
    [("Value", e.Value.marshal)])

/-- `json.Marshal` of a `Condition`: `ComparisonOperator` carries no `omitempty`. -/
def Condition.marshal (c : Condition) : JSON :=
  .obj (
    (if sliceLen c.AttributeValueList = 0 then []
      else [("AttributeValueList", .arr (marshalList (c.AttributeValueList.getD [])))]) ++
    [("ComparisonOperator", .str c.ComparisonOperator)])

/-- `json.Marshal` of a `map[string]Condition` that is encoded at all: nil is `null`. -/
def marshalConditions : Option (List (String × Condition)) → JSON
  | none => .null
  | some es => .obj (es.map (fun e => (e.1, e.2.marshal)))

/-- `json.Marshal` of a `map[string]string` that is encoded at all: nil is `null`. -/
def marshalStringMap : Option (List (String × String)) → JSON
  | none => .null
  | some es => .obj (es.map (fun e => (e.1, JSON.str e.2)))

/-- `json.Marshal` of a `QueryInput`: the sixteen fields in declaration order; `KeyConditions`
and `TableName` carry no `omitempty`. -/
def QueryInput.marshal (q : QueryInput) : JSON :=
  .obj (
    (if sliceLen q.AttributesToGet = 0 then []
      else [("AttributesToGet", .arr ((q.AttributesToGet.getD []).map JSON.str))]) ++
    (if q.ConditionalOperator.length = 0 then []
      else [("ConditionalOperator", .str q.ConditionalOperator)]) ++
    (if q.ConsistentRead then [("ConsistentRead", .bool true)] else []) ++
    (if sliceLen q.ExclusiveStartKey = 0 then []
      else [("ExclusiveStartKey", marshalAttributeMap q.ExclusiveStartKey)]) ++
    (if sliceLen q.ExpressionAttributeNames = 0 then []
      else [("ExpressionAttributeNames", marshalStringMap q.ExpressionAttributeNames)]) ++
    (if sliceLen q.ExpressionAttributeValues = 0 then []
      else [("ExpressionAttributeValues", marshalAttributeMap q.ExpressionAttributeValues)]) ++
    (if q.FilterExpression.length = 0 then []
      else [("FilterExpression", .str q.FilterExpression)]) ++
    (if q.IndexName.length = 0 then [] else [("IndexName", .str q.IndexName)]) ++
    [("KeyConditions", marshalConditions q.KeyConditions)] ++
    (if q.Limit = 0 then [] else [("Limit", .num q.Limit)]) ++
    (if q.ProjectionExpression.length = 0 then []
      else [("ProjectionExpression", .str q.ProjectionExpression)]) ++
    (if sliceLen q.QueryFilter = 0 then []
      else [("QueryFilter", marshalConditions q.QueryFilter)]) ++
    (if q.ReturnConsumedCapacity.length = 0 then []
      else [("ReturnConsumedCapacity", .str q.ReturnConsumedCapacity)]) ++
    (if q.ScanIndexForward then [("ScanIndexForward", .bool true)] else []) ++
    (if q.Select.length = 0 then [] else [("Select", .str q.Select)]) ++
    [("TableName", .str q.TableName)])

/-- The value a JSON object holds under a key (the first member with that key). -/
def JSON.member (k : String) : JSON → Option JSON
  | .obj kvs => (kvs.find? (fun e => e.1 == k)).map Prod.snd
  | _ => none

/-! ## Values in the form the decoder produces -/

/-- A slice or map is nil when it has no element. -/
def nilWhenEmpty {α : Type} : Option (List α) → Bool
  | some [] => false
  | _ => true

/-- The entries of a map are in strictly increasing key order (each key once). -/
def keysAscending {α : Type} : List (String × α) → Bool
  | [] => true
  | e :: es => es.all (fun f => stringLess e.1.data f.1.data) && keysAscending es

mutual
/-- An `AttributeValue` in which, at every depth, a slice or map without elements is nil and
the entries of a map are in increasing key order. -/
def AttributeValue.canonical : AttributeValue → Bool
  | ⟨B, _, BS, L, M, _, NS, _, _, SS⟩ =>
    nilWhenEmpty B && nilWhenEmpty BS && nilWhenEmpty NS && nilWhenEmpty SS &&
    (match L with
      | none => true
      | some xs => !xs.isEmpty && canonicalList xs) &&
    (match M with
      | none => true
      | some es => !es.isEmpty && keysAscending es && canonicalMap es)
/-- Every element is canonical. -/
def canonicalList : List AttributeValue → Bool
  | [] => true
  | x :: xs => x.canonical && canonicalList xs
/-- Every value is canonical. -/
def canonicalMap : List (String × AttributeValue) → Bool
  | [] => true
  | (_, x) :: es => x.canonical && canonicalMap es
end

/-! ## More sample transports and values -/

/-- What `fillingTransport` leaves in `*resp`: attributes in the response of a single-item
write, an item in a GetItem response, and in a Query response an empty page with a cursor. -/
def filledResponse : (P : Shape) → P.type → P.type
  | .PutItemOutput, r => { r with Attributes := some sampleKey }
  | .DeleteItemOutput, r => { r with Attributes := some sampleKey }
  | .UpdateItemOutput, r => { r with Attributes := some sampleKey }
  | .GetItemOutput, r => { r with Item := some sampleKey }
  | .QueryOutput, r => { r with Items := some [], LastEvaluatedKey := some sampleKey }
  | _, r => r

/-- A transport that fills the response as `filledResponse` says and returns `e`. -/
def fillingTransport (e : Option Error) : Transport Unit where
  run call s := ((filledResponse call.respShape call.resp, e), s)

/-- A nested value: a map holding a 30-digit number, a binary, a list and a non-ASCII string. -/
def sampleNested : AttributeValue :=
  { AttributeValue.zero with
    M := some [
      ("big", { AttributeValue.zero with N := "123456789012345678901234567890.5" }),
      ("bin", { AttributeValue.zero with B := some [0, 255, 16, 77] }),
      ("list", { AttributeValue.zero with
        L := some [{ AttributeValue.zero with BOOL := true },
          { AttributeValue.zero with SS := some ["x", "y"] }] }),
      ("text", { AttributeValue.zero with S := "héllo, 世界" })] }

/-- The zero response a method allocates before the call (`resp = &XOutput{}`). -/
def Operation.emptyResponse : (op : Operation) → op.Output.type
  | .BatchGetItem => ({} : BatchGetItemOutput)
  | .BatchWriteItem => ({} : BatchWriteItemOutput)
  | .CreateTable => ({} : CreateTableOutput)
  | .DeleteItem => ({} : DeleteItemOutput)
  | .DeleteTable => ({} : DeleteTableOutput)
  | .DescribeTable => ({} : DescribeTableOutput)
  | .GetItem => ({} : GetItemOutput)
  | .ListTables => ({} : ListTablesOutput)
  | .PutItem => ({} : PutItemOutput)
  | .Query => ({} : QueryOutput)
  | .Scan => ({} : ScanOutput)
  | .UpdateItem => ({} : UpdateItemOutput)
  | .UpdateTable => ({} : UpdateTableOutput)

/-- The call a method makes: its own name, POST, the root path, the caller's request and the
fresh zero response. -/
def Operation.call (c : DynamoDB) (op : Operation) (req : op.Input.type) : Call :=
  ⟨c.client, op.name, "POST", "/", op.Input, req, op.Output, op.emptyResponse⟩

/-- The pagination invariant of a Query page: not both an empty item list and a non-empty
LastEvaluatedKey. -/
def QueryOutput.pageInvariant (r : QueryOutput) : Bool :=
  !(sliceLen r.Items == 0 && sliceLen r.LastEvaluatedKey != 0)

/-! # Theorems -/

/-- Claim C1: for each of the thirteen operations and every request, the one call handed to
the transport carries the method's own name as the operation name, the HTTP method POST and
the path "/"; the client built by `New` has the target prefix "DynamoDB_20120810", so the
operation-selection header is "DynamoDB_20120810." followed by the operation name. -/
theorem operation_selects_by_own_name {σ : Type} (t : Transport σ) (env : Env)
    (creds : Credentials) (region : String) (client : Option HTTPClient) (op : Operation)
    (req : op.Input.type) (w : World σ) :
    (New env creds region client).client.TargetPrefix = "DynamoDB_20120810" ∧
    ∃ call : Call,
      (op.invoke t (New env creds region client) req w).2.calls = w.calls ++ [call] ∧
      call.client = (New env creds region client).client ∧
      call.action = op.name ∧ call.method = "POST" ∧ call.uri = "/" ∧
      targetHeader call.client call.action = "DynamoDB_20120810." ++ op.name := by
  refine ⟨rfl, ?_⟩
  cases op <;> exact ⟨_, rfl, rfl, rfl, rfl, rfl, rfl⟩

/-- Claim C2: for every operation and every request, one invocation of the operation invokes
the transport exactly once, whatever the transport answers (success or failure): the record of
transport invocations grows by exactly one entry. -/
theorem operation_invokes_transport_once {σ : Type} (t : Transport σ) (c : DynamoDB)
    (op : Operation) (req : op.Input.type) (w : World σ) :
    (op.invoke t c req w).2.calls.length = w.calls.length + 1 := by
  cases op <;> simp [Operation.invoke, DynamoDB.BatchGetItem, DynamoDB.BatchWriteItem,
    DynamoDB.CreateTable, DynamoDB.DeleteItem, DynamoDB.DeleteTable, DynamoDB.DescribeTable,
    DynamoDB.GetItem, DynamoDB.ListTables, DynamoDB.PutItem, DynamoDB.Query, DynamoDB.Scan,
    DynamoDB.UpdateItem, DynamoDB.UpdateTable, JSONClient.Do]

/-- Claim C3: for every operation and every request, the failure the operation returns is
exactly the failure the transport reported for the one call it received, and the operation
returns no failure if and only if the transport reported none. -/
theorem operation_returns_transport_failure {σ : Type} (t : Transport σ) (c : DynamoDB)
    (op : Operation) (req : op.Input.type) (w : World σ) :
    ∃ call : Call,
      (op.invoke t c req w).2.calls = w.calls ++ [call] ∧
      (op.invoke t c req w).1.2 = (t.run call w.net).1.2 ∧
      ((op.invoke t c req w).1.2 = none ↔ (t.run call w.net).1.2 = none) := by
  cases op <;> exact ⟨_, rfl, rfl, Iff.rfl⟩

/-- Claim C4: for Query and Scan and every request value, the request handed to the transport
is the caller's request, field for field; and when the LastEvaluatedKey of one page is set as
the ExclusiveStartKey of the next request, the second call hands the transport that same key. -/
theorem query_scan_request_reaches_transport_unchanged {σ : Type} (t : Transport σ)
    (c : DynamoDB) (q : QueryInput) (s : ScanInput) (w : World σ) :
    (c.Query t q w).2.calls
        = w.calls ++ [⟨c.client, "Query", "POST", "/", .QueryInput, q, .QueryOutput,
            ({} : QueryOutput)⟩] ∧
    (c.Scan t s w).2.calls
        = w.calls ++ [⟨c.client, "Scan", "POST", "/", .ScanInput, s, .ScanOutput,
            ({} : ScanOutput)⟩] ∧
    (c.Query t { q with ExclusiveStartKey := (c.Query t q w).1.1.LastEvaluatedKey }
          (c.Query t q w).2).2.calls
        = (c.Query t q w).2.calls ++ [⟨c.client, "Query", "POST", "/", .QueryInput,
            { q with ExclusiveStartKey := (c.Query t q w).1.1.LastEvaluatedKey },
            .QueryOutput, ({} : QueryOutput)⟩] ∧
    (c.Scan t { s with ExclusiveStartKey := (c.Scan t s w).1.1.LastEvaluatedKey }
          (c.Scan t s w).2).2.calls
        = (c.Scan t s w).2.calls ++ [⟨c.client, "Scan", "POST", "/", .ScanInput,
            { s with ExclusiveStartKey := (c.Scan t s w).1.1.LastEvaluatedKey },
            .ScanOutput, ({} : ScanOutput)⟩] :=
  ⟨rfl, rfl, rfl, rfl⟩

/-- Claim C5: for every BatchWriteItem request, if the transport reports success with a
response whose UnprocessedItems map `U` is non-empty, BatchWriteItem returns no failure and a
response whose UnprocessedItems is exactly `U`; `U` has the type of RequestItems, and a
request resubmitting it hands the transport `U` unchanged. -/
theorem batchWriteItem_surfaces_unprocessed {σ : Type} (t : Transport σ) (c : DynamoDB)
    (req : BatchWriteItemInput) (w : World σ)
    (U : List (String × Option (List WriteRequest)))
    (hok : (t.run ⟨c.client, "BatchWriteItem", "POST", "/", .BatchWriteItemInput, req,
      .BatchWriteItemOutput, ({} : BatchWriteItemOutput)⟩ w.net).1.2 = none)
    (hU : BatchWriteItemOutput.UnprocessedItems
      (t.run ⟨c.client, "BatchWriteItem", "POST", "/", .BatchWriteItemInput, req,
        .BatchWriteItemOutput, ({} : BatchWriteItemOutput)⟩ w.net).1.1 = some U)
    (_hne : U ≠ []) :
    (c.BatchWriteItem t req w).1.2 = none ∧
    (c.BatchWriteItem t req w).1.1.UnprocessedItems = some U ∧
    ∃ call : Call,
      (c.BatchWriteItem t { req with RequestItems := (c.BatchWriteItem t req w).1.1.UnprocessedItems }
        (c.BatchWriteItem t req w).2).2.calls = (c.BatchWriteItem t req w).2.calls ++ [call] ∧
      call = ⟨c.client, "BatchWriteItem", "POST", "/", .BatchWriteItemInput,
        { req with RequestItems := some U }, .BatchWriteItemOutput,
        ({} : BatchWriteItemOutput)⟩ := by
  have h1 : (c.BatchWriteItem t req w).1.1.UnprocessedItems = some U := hU
  refine ⟨hok, h1, _, rfl, ?_⟩
  rw [h1]

/-- Witness for C5: a 25-item batch of which the transport leaves five unprocessed. -/
theorem batchWriteItem_surfaces_unprocessed_witness :
    sampleUnprocessed ≠ [] ∧
    (partialTransport.run ⟨sampleClient.client, "BatchWriteItem", "POST", "/",
      .BatchWriteItemInput, write25, .BatchWriteItemOutput, ({} : BatchWriteItemOutput)⟩
      freshWorld.net).1.2 = none ∧
    (sampleClient.BatchWriteItem partialTransport write25 freshWorld).1.2 = none ∧
    (sampleClient.BatchWriteItem partialTransport write25 freshWorld).1.1.UnprocessedItems
      = some sampleUnprocessed :=
  ⟨by simp [sampleUnprocessed], rfl,
    (batchWriteItem_surfaces_unprocessed partialTransport sampleClient write25 freshWorld
      sampleUnprocessed rfl rfl (by simp [sampleUnprocessed])).1,
    (batchWriteItem_surfaces_unprocessed partialTransport sampleClient write25 freshWorld
      sampleUnprocessed rfl rfl (by simp [sampleUnprocessed])).2.1⟩

/-- Claim C6, refuted as stated: a BatchGetItem request naming 101 keys and a BatchWriteItem
request holding 26 write requests are not rejected; with a transport that reports success,
each returns no failure and the transport has been invoked once. -/
theorem batch_cap_not_enforced :
    get101.keyCount = 101 ∧
    (sampleClient.BatchGetItem okTransport get101 freshWorld).1.2 = none ∧
    (sampleClient.BatchGetItem okTransport get101 freshWorld).2.calls.length = 1 ∧
    write26.writeCount = 26 ∧
    (sampleClient.BatchWriteItem okTransport write26 freshWorld).1.2 = none ∧
    (sampleClient.BatchWriteItem okTransport write26 freshWorld).2.calls.length = 1 := by
  refine ⟨by decide, rfl, rfl, by decide, rfl, rfl⟩

/-- Claim C6 as amended: a batch request that exceeds its operation's cardinality cap (more
than 100 keys for BatchGetItem, more than 25 write requests for BatchWriteItem) is not checked
locally: it is handed to the transport once, unchanged, and what the operation returns is what
the transport answers. -/
theorem batch_over_cap_is_dispatched {σ : Type} (t : Transport σ) (c : DynamoDB) (w : World σ)
    (g : BatchGetItemInput) (_hg : 100 < g.keyCount)
    (b : BatchWriteItemInput) (_hb : 25 < b.writeCount) :
    (c.BatchGetItem t g w).2.calls
        = w.calls ++ [⟨c.client, "BatchGetItem", "POST", "/", .BatchGetItemInput, g,
            .BatchGetItemOutput, ({} : BatchGetItemOutput)⟩] ∧
    (c.BatchGetItem t g w).1
        = (t.run ⟨c.client, "BatchGetItem", "POST", "/", .BatchGetItemInput, g,
            .BatchGetItemOutput, ({} : BatchGetItemOutput)⟩ w.net).1 ∧
    (c.BatchWriteItem t b w).2.calls
        = w.calls ++ [⟨c.client, "BatchWriteItem", "POST", "/", .BatchWriteItemInput, b,
            .BatchWriteItemOutput, ({} : BatchWriteItemOutput)⟩] ∧
    (c.BatchWriteItem t b w).1
        = (t.run ⟨c.client, "BatchWriteItem", "POST", "/", .BatchWriteItemInput, b,
            .BatchWriteItemOutput, ({} : BatchWriteItemOutput)⟩ w.net).1 :=
  ⟨rfl, rfl, rfl, rfl⟩

/-- Witness for C6 as amended: 101 keys and 26 write requests, with a failing transport. -/
theorem batch_over_cap_is_dispatched_witness :
    100 < get101.keyCount ∧ 25 < write26.writeCount ∧
    (sampleClient.BatchGetItem (failTransport ⟨"throttled"⟩) get101 freshWorld).2.calls
        = freshWorld.calls ++ [⟨sampleClient.client, "BatchGetItem", "POST", "/",
            .BatchGetItemInput, get101, .BatchGetItemOutput, ({} : BatchGetItemOutput)⟩] ∧
    (sampleClient.BatchWriteItem (failTransport ⟨"throttled"⟩) write26 freshWorld).2.calls
        = freshWorld.calls ++ [⟨sampleClient.client, "BatchWriteItem", "POST", "/",
            .BatchWriteItemInput, write26, .BatchWriteItemOutput,
            ({} : BatchWriteItemOutput)⟩] :=
  ⟨by decide, by decide,
    (batch_over_cap_is_dispatched (failTransport ⟨"throttled"⟩) sampleClient freshWorld
      get101 (by decide) write26 (by decide)).1,
    (batch_over_cap_is_dispatched (failTransport ⟨"throttled"⟩) sampleClient freshWorld
      get101 (by decide) write26 (by decide)).2.2.1⟩

/-- The sample request `putAndDelete` holds two write requests against one item. -/
theorem putAndDelete_collides : putAndDelete.hasKeyCollision :=
  ⟨"t", [samplePut, sampleDelete], 0, 1, sampleKey, samplePut, sampleDelete,
    by simp [putAndDelete], by decide, by simp [sampleKey], rfl, rfl,
    Or.inr ⟨_, rfl, fun kv h => List.mem_append_left _ h⟩, Or.inl rfl⟩

/-- Claim C7, refuted as stated: a BatchWriteItem request that puts and deletes the same item
under one table is not rejected; with a transport that reports success it returns no failure
and the transport has been invoked once, with both write requests. -/
theorem batchWriteItem_collision_not_rejected :
    putAndDelete.hasKeyCollision ∧
    (sampleClient.BatchWriteItem okTransport putAndDelete freshWorld).1.2 = none ∧
    (sampleClient.BatchWriteItem okTransport putAndDelete freshWorld).2.calls
      = [⟨sampleClient.client, "BatchWriteItem", "POST", "/", .BatchWriteItemInput,
          putAndDelete, .BatchWriteItemOutput, ({} : BatchWriteItemOutput)⟩] :=
  ⟨putAndDelete_collides, rfl, rfl⟩

/-- Claim C7 as amended: a BatchWriteItem request that contains more than one write request
against the same (table, key) pair is not checked locally: it is handed to the transport once,
unchanged, and what BatchWriteItem returns is what the transport answers. -/
theorem batchWriteItem_collision_is_dispatched {σ : Type} (t : Transport σ) (c : DynamoDB)
    (w : World σ) (b : BatchWriteItemInput) (_h : b.hasKeyCollision) :
    (c.BatchWriteItem t b w).2.calls
        = w.calls ++ [⟨c.client, "BatchWriteItem", "POST", "/", .BatchWriteItemInput, b,
            .BatchWriteItemOutput, ({} : BatchWriteItemOutput)⟩] ∧
    (c.BatchWriteItem t b w).1
        = (t.run ⟨c.client, "BatchWriteItem", "POST", "/", .BatchWriteItemInput, b,
            .BatchWriteItemOutput, ({} : BatchWriteItemOutput)⟩ w.net).1 :=
  ⟨rfl, rfl⟩

/-- Witness for C7 as amended: a put and a delete of one item, with a failing transport. -/
theorem batchWriteItem_collision_is_dispatched_witness :
    putAndDelete.hasKeyCollision ∧
    (sampleClient.BatchWriteItem (failTransport ⟨"rejected"⟩) putAndDelete freshWorld).1
      = (({} : BatchWriteItemOutput), some ⟨"rejected"⟩) :=
  ⟨putAndDelete_collides,
    (batchWriteItem_collision_is_dispatched (failTransport ⟨"rejected"⟩) sampleClient
      freshWorld putAndDelete putAndDelete_collides).2⟩

/-- Claim C8, refuted as stated: a Query request with empty KeyConditions, hence without an
equality condition, is not rejected; with a transport that reports success it returns no
failure and the transport has been invoked once. -/
theorem query_without_equality_not_rejected :
    ({} : QueryInput).hasEQ = false ∧
    (sampleClient.Query okTransport {} freshWorld).1.2 = none ∧
    (sampleClient.Query okTransport {} freshWorld).2.calls.length = 1 :=
  ⟨by decide, rfl, rfl⟩

/-- Claim C8 as amended: a Query request whose KeyConditions contains no equality (EQ)
condition, in particular one with empty KeyConditions, is not checked locally: it is handed to
the transport once, unchanged, and what Query returns is what the transport answers. -/
theorem query_without_equality_is_dispatched {σ : Type} (t : Transport σ) (c : DynamoDB)
    (w : World σ) (q : QueryInput) (_h : q.hasEQ = false) :
    (c.Query t q w).2.calls
        = w.calls ++ [⟨c.client, "Query", "POST", "/", .QueryInput, q, .QueryOutput,
            ({} : QueryOutput)⟩] ∧
    (c.Query t q w).1
        = (t.run ⟨c.client, "Query", "POST", "/", .QueryInput, q, .QueryOutput,
            ({} : QueryOutput)⟩ w.net).1 :=
  ⟨rfl, rfl⟩

/-- Witness for C8 as amended: the request with no key condition, with a failing transport. -/
theorem query_without_equality_is_dispatched_witness :
    ({} : QueryInput).hasEQ = false ∧
    (sampleClient.Query (failTransport ⟨"invalid"⟩) {} freshWorld).1
      = (({} : QueryOutput), some ⟨"invalid"⟩) :=
  ⟨by decide,
    (query_without_equality_is_dispatched (failTransport ⟨"invalid"⟩) sampleClient freshWorld
      {} (by decide)).2⟩

/-- The keys of the wire encoding of an `AttributeValue` are its populated fields. -/
theorem marshal_keys (v : AttributeValue) : v.marshal.keys = v.populated := by
  rcases v with ⟨B, BOOL, BS, L, M, N, NS, NULL, S, SS⟩
  cases L <;> cases M <;>
    simp [AttributeValue.marshal, AttributeValue.marshalMembers, JSON.keys,
      AttributeValue.populated, sliceLen, apply_ite (List.map Prod.fst)]

/-- Claim C9, refuted as stated: the `AttributeValue` with no variant set and the one with both
S and N set are serialized, as the empty object and as an object with the two keys N and S;
and a PutItem request carrying both is handed to the transport, with no failure. -/
theorem malformed_attributeValue_not_rejected :
    AttributeValue.zero.populated = [] ∧
    AttributeValue.zero.marshal = .obj [] ∧
    stringAndNumber.populated = ["N", "S"] ∧
    stringAndNumber.marshal = .obj [("N", .str "1"), ("S", .str "a")] ∧
    (sampleClient.PutItem okTransport putMalformed freshWorld).1.2 = none ∧
    (sampleClient.PutItem okTransport putMalformed freshWorld).2.calls
      = [⟨sampleClient.client, "PutItem", "POST", "/", .PutItemInput, putMalformed,
          .PutItemOutput, ({} : PutItemOutput)⟩] :=
  ⟨by decide, rfl, by decide, rfl, rfl, rfl⟩

/-- Claim C9 as amended: an `AttributeValue` with zero variants populated, or with more than
one, is not rejected: a PutItem request carrying it is handed to the transport unchanged, and
its wire encoding is the JSON object with one key for each populated field, so an object whose
number of keys is not one (the empty object when nothing is populated). -/
theorem malformed_attributeValue_is_serialized {σ : Type} (t : Transport σ) (c : DynamoDB)
    (w : World σ) (req : PutItemInput) (name : String) (v : AttributeValue)
    (_hin : (name, v) ∈ req.Item.getD []) (hv : v.populated.length ≠ 1) :
    (c.PutItem t req w).2.calls
        = w.calls ++ [⟨c.client, "PutItem", "POST", "/", .PutItemInput, req, .PutItemOutput,
            ({} : PutItemOutput)⟩] ∧
    ∃ kvs, v.marshal = .obj kvs ∧ kvs.map Prod.fst = v.populated ∧ kvs.length ≠ 1 := by
  have hkeys : v.marshalMembers.map Prod.fst = v.populated := marshal_keys v
  refine ⟨rfl, v.marshalMembers, rfl, hkeys, ?_⟩
  intro hlen
  apply hv
  rw [← hkeys, List.length_map, hlen]

/-- Witness for C9 as amended: the value with no variant set, inside `putMalformed`. -/
theorem malformed_attributeValue_is_serialized_witness :
    ("none", AttributeValue.zero) ∈ putMalformed.Item.getD [] ∧
    AttributeValue.zero.populated.length ≠ 1 ∧
    ∃ kvs, AttributeValue.zero.marshal = .obj kvs ∧
      kvs.map Prod.fst = AttributeValue.zero.populated ∧ kvs.length ≠ 1 :=
  ⟨List.mem_cons_self _ _, by decide,
    (malformed_attributeValue_is_serialized okTransport sampleClient freshWorld putMalformed
      "none" AttributeValue.zero (List.mem_cons_self _ _) (by decide)).2⟩

/-- Claim C10, refuted as stated: decoding the wire object with the two type tags S and N
reports no error and yields a value with both fields set, and decoding the wire object with no
type tag reports no error and yields the zero value. -/
theorem two_or_no_tags_decode_without_error :
    AttributeValue.unmarshal (.obj [("S", .str "a"), ("N", .str "1")])
      = (stringAndNumber, none) ∧
    AttributeValue.unmarshal (.obj []) = (AttributeValue.zero, none) :=
  ⟨rfl, rfl⟩

/-- Claim C10 as amended: decoding a wire value object that carries the two type tags S and N,
whatever their string payloads, does not fail: it yields the `AttributeValue` with both S and
N set; and decoding a wire value object that carries no type tag does not fail either: it
yields the zero `AttributeValue`. -/
theorem two_or_no_tags_decode_to_struct (s n : String) :
    AttributeValue.unmarshal (.obj [("S", .str s), ("N", .str n)])
      = ({ AttributeValue.zero with N := n, S := s }, none) ∧
    AttributeValue.unmarshal (.obj [("N", .str n), ("S", .str s)])
      = ({ AttributeValue.zero with N := n, S := s }, none) ∧
    AttributeValue.unmarshal (.obj []) = (AttributeValue.zero, none) :=
  ⟨rfl, rfl, rfl⟩

/-- Every method is the one transport call `Operation.call` describes. -/
theorem invoke_eq_run {σ : Type} (t : Transport σ) (c : DynamoDB) (op : Operation)
    (req : op.Input.type) (w : World σ) :
    (op.invoke t c req w).1 = (t.run (op.call c req) w.net).1 := by
  cases op <;> rfl

/-! ## Round trip of the wire form -/

/-- Every 6-bit value is read back from its character. -/
theorem base64Value_digit : ∀ i, i < 64 → base64Value (base64Digit i) = some i := by decide

/-- No character of the encoding is a line break. -/
theorem base64Digit_not_newline (i : Nat) :
    (base64Digit i != '\r' && base64Digit i != '\n') = true := by
  by_cases h : i < 64
  · revert i
    decide
  · have : base64Digit i = '=' := by
      unfold base64Digit
      exact List.getD_eq_default _ _ (by simpa [base64Alphabet] using Nat.le_of_not_lt h)
    rw [this]
    decide

/-- Skipping line breaks leaves an encoding as it is. -/
theorem base64EncodeChars_filter (bs : List Byte) :
    (base64EncodeChars bs).filter (fun c => c != '\r' && c != '\n') = base64EncodeChars bs := by
  induction bs using base64EncodeChars.induct with
  | case1 => rfl
  | case2 a => simp [base64EncodeChars, base64Digit_not_newline]
  | case3 a b => simp [base64EncodeChars, base64Digit_not_newline]
  | case4 a b c rest ih =>
    simp only [base64EncodeChars, List.filter_cons, base64Digit_not_newline, if_true, ih]

/-- Decoding the encoding of a byte sequence gives the sequence back. -/
theorem base64DecodeChars_encode (bs : List Byte) :
    base64DecodeChars (base64EncodeChars bs) = some bs := by
  induction bs using base64EncodeChars.induct with
  | case1 => rfl
  | case2 a =>
    have ha := a.isLt
    have h0 := base64Value_digit (a.val / 4) (by omega)
    have h1 := base64Value_digit (a.val % 4 * 16) (by omega)
    have hp : base64Value '=' = none := by decide
    simp only [base64EncodeChars, base64DecodeChars, h0, h1, hp]
    simp [byte, Fin.ext_iff]
    omega
  | case3 a b =>
    have ha := a.isLt
    have hb := b.isLt
    have h0 := base64Value_digit (a.val / 4) (by omega)
    have h1 := base64Value_digit (a.val % 4 * 16 + b.val / 16) (by omega)
    have h2 := base64Value_digit (b.val % 16 * 4) (by omega)
    have hp : base64Value '=' = none := by decide
    simp only [base64EncodeChars, base64DecodeChars, h0, h1, h2, hp]
    simp [byte, Fin.ext_iff]
    omega
  | case4 a b c rest ih =>
    have ha := a.isLt
    have hb := b.isLt
    have hc := c.isLt
    have h0 := base64Value_digit (a.val / 4) (by omega)
    have h1 := base64Value_digit (a.val % 4 * 16 + b.val / 16) (by omega)
    have h2 := base64Value_digit (b.val % 16 * 4 + c.val / 64) (by omega)
    have h3 := base64Value_digit (c.val % 64) (by omega)
    simp only [base64EncodeChars, base64DecodeChars, h0, h1, h2, h3, ih]
    simp [byte, Fin.ext_iff]
    omega

/-- `base64.StdEncoding` round trip. -/
theorem base64Decode_encode (bs : List Byte) : base64Decode (base64Encode bs) = some bs := by
  unfold base64Decode base64Encode
  rw [base64EncodeChars_filter, base64DecodeChars_encode]

/-- A `[]byte` that was encoded is decoded to itself, whatever the field held. -/
theorem unmarshalBytes_marshal (cur x : Option (List Byte)) :
    unmarshalBytes cur (marshalBytes x) = (x, none) := by
  cases x with
  | none => rfl
  | some bs => simp [marshalBytes, unmarshalBytes, base64Decode_encode]

/-- The elements of a `[][]byte` are decoded to themselves. -/
theorem unmarshalBytesElems_marshal (xs : List (Option (List Byte)))
    (old : List (Option (List Byte))) :
    unmarshalBytesElems old (xs.map marshalBytes) = (xs, none) := by
  induction xs generalizing old with
  | nil => rfl
  | cons x xs ih =>
    simp [unmarshalBytesElems, unmarshalBytes_marshal, ih, firstError]

/-- The elements of a `[]string` are decoded to themselves. -/
theorem unmarshalStringElems_marshal (xs : List String) (old : List String) :
    unmarshalStringElems old (xs.map JSON.str) = (xs, none) := by
  induction xs generalizing old with
  | nil => rfl
  | cons x xs ih =>
    simp [unmarshalStringElems, unmarshalString, ih, firstError]

/-- The order on keys is asymmetric. -/
theorem stringLess_asymm (a b : List Char) (h : stringLess a b = true) :
    stringLess b a = false := by
  induction a generalizing b with
  | nil => cases b <;> simp_all [stringLess]
  | cons x xs ih =>
    cases b with
    | nil => simp [stringLess] at h
    | cons y ys =>
      simp only [stringLess] at h ⊢
      by_cases h1 : x.toNat < y.toNat
      · have h2 : ¬ y.toNat < x.toNat := by omega
        simp [h1, h2]
      · by_cases h2 : y.toNat < x.toNat
        · simp [h1, h2] at h
        · simp only [h1, h2, if_false] at h ⊢
          exact ih ys h

/-- Storing under a key greater than every key present appends the entry. -/
theorem mapInsert_last {α : Type} (k : String) (v : α) (acc : List (String × α))
    (h : ∀ e ∈ acc, stringLess e.1.data k.data = true) :
    mapInsert k v acc = acc ++ [(k, v)] := by
  induction acc with
  | nil => rfl
  | cons e acc ih =>
    obtain ⟨k0, v0⟩ := e
    have hlt : stringLess k0.data k.data = true := h (k0, v0) (List.mem_cons_self _ _)
    have hnot : stringLess k.data k0.data = false := stringLess_asymm _ _ hlt
    have hne : k ≠ k0 := by
      intro heq
      subst heq
      rw [hnot] at hlt
      exact Bool.noConfusion hlt
    simp only [mapInsert, hnot, hne, if_false, List.cons_append]
    rw [ih (fun e he => h e (List.mem_cons_of_mem _ he))]
    simp

/-- With no earlier error, the error is the later one. -/
theorem firstError_none (e : Option DecodeError) : firstError none e = e := rfl

/-- A string of length zero is the empty string. -/
theorem string_eq_empty (s : String) (h : s.length = 0) : s = "" := by
  obtain ⟨d⟩ := s
  cases d with
  | nil => rfl
  | cons c cs => simp [String.length] at h

/-- Decoding a member with key `B`: one step on that field, then the rest. -/
theorem fields_cons_B (cur : AttributeValue) (v : JSON) (rest : List (String × JSON)) :
    unmarshalFields cur (("B", v) :: rest)
      = ((unmarshalFields { cur with B := (unmarshalBytes cur.B v).1 } rest).1,
          firstError (unmarshalBytes cur.B v).2
            (unmarshalFields { cur with B := (unmarshalBytes cur.B v).1 } rest).2) := rfl

/-- Decoding a member with key `BOOL`: one step on that field, then the rest. -/
theorem fields_cons_BOOL (cur : AttributeValue) (v : JSON) (rest : List (String × JSON)) :
    unmarshalFields cur (("BOOL", v) :: rest)
      = ((unmarshalFields { cur with BOOL := (unmarshalBool cur.BOOL v).1 } rest).1,
          firstError (unmarshalBool cur.BOOL v).2
            (unmarshalFields { cur with BOOL := (unmarshalBool cur.BOOL v).1 } rest).2) := rfl

/-- Decoding a member with key `BS`: one step on that field, then the rest. -/
theorem fields_cons_BS (cur : AttributeValue) (v : JSON) (rest : List (String × JSON)) :
    unmarshalFields cur (("BS", v) :: rest)
      = ((unmarshalFields { cur with BS := (unmarshalByteSlices cur.BS v).1 } rest).1,
          firstError (unmarshalByteSlices cur.BS v).2
            (unmarshalFields { cur with BS := (unmarshalByteSlices cur.BS v).1 } rest).2) := rfl

/-- Decoding a member with key `L`: one step on that field, then the rest. -/
theorem fields_cons_L (cur : AttributeValue) (xs : List JSON) (rest : List (String × JSON)) :
    unmarshalFields cur (("L", .arr xs) :: rest)
      = ((unmarshalFields { cur with L := some (unmarshalList (cur.L.getD []) xs).1 } rest).1,
          firstError (unmarshalList (cur.L.getD []) xs).2
            (unmarshalFields { cur with L := some (unmarshalList (cur.L.getD []) xs).1 }
              rest).2) := rfl

/-- Decoding a member with key `M`: one step on that field, then the rest. -/
theorem fields_cons_M (cur : AttributeValue) (es : List (String × JSON))
    (rest : List (String × JSON)) :
    unmarshalFields cur (("M", .obj es) :: rest)
      = ((unmarshalFields { cur with M := some (unmarshalMap (cur.M.getD []) es).1 } rest).1,
          firstError (unmarshalMap (cur.M.getD []) es).2
            (unmarshalFields { cur with M := some (unmarshalMap (cur.M.getD []) es).1 }
              rest).2) := rfl

/-- Decoding a member with key `N`: one step on that field, then the rest. -/
theorem fields_cons_N (cur : AttributeValue) (v : JSON) (rest : List (String × JSON)) :
    unmarshalFields cur (("N", v) :: rest)
      = ((unmarshalFields { cur with N := (unmarshalString cur.N v).1 } rest).1,
          firstError (unmarshalString cur.N v).2
            (unmarshalFields { cur with N := (unmarshalString cur.N v).1 } rest).2) := rfl

/-- Decoding a member with key `NS`: one step on that field, then the rest. -/
theorem fields_cons_NS (cur : AttributeValue) (v : JSON) (rest : List (String × JSON)) :
    unmarshalFields cur (("NS", v) :: rest)
      = ((unmarshalFields { cur with NS := (unmarshalStrings cur.NS v).1 } rest).1,
          firstError (unmarshalStrings cur.NS v).2
            (unmarshalFields { cur with NS := (unmarshalStrings cur.NS v).1 } rest).2) := rfl

/-- Decoding a member with key `NULL`: one step on that field, then the rest. -/
theorem fields_cons_NULL (cur : AttributeValue) (v : JSON) (rest : List (String × JSON)) :
    unmarshalFields cur (("NULL", v) :: rest)
      = ((unmarshalFields { cur with NULL := (unmarshalBool cur.NULL v).1 } rest).1,
          firstError (unmarshalBool cur.NULL v).2
            (unmarshalFields { cur with NULL := (unmarshalBool cur.NULL v).1 } rest).2) := rfl

/-- Decoding a member with key `S`: one step on that field, then the rest. -/
theorem fields_cons_S (cur : AttributeValue) (v : JSON) (rest : List (String × JSON)) :
    unmarshalFields cur (("S", v) :: rest)
      = ((unmarshalFields { cur with S := (unmarshalString cur.S v).1 } rest).1,
          firstError (unmarshalString cur.S v).2
            (unmarshalFields { cur with S := (unmarshalString cur.S v).1 } rest).2) := rfl

/-- Decoding a member with key `SS`: one step on that field, then the rest. -/
theorem fields_cons_SS (cur : AttributeValue) (v : JSON) (rest : List (String × JSON)) :
    unmarshalFields cur (("SS", v) :: rest)
      = ((unmarshalFields { cur with SS := (unmarshalStrings cur.SS v).1 } rest).1,
          firstError (unmarshalStrings cur.SS v).2
            (unmarshalFields { cur with SS := (unmarshalStrings cur.SS v).1 } rest).2) := rfl

/-- The segment of field `B`. -/
theorem seg_B (cur : AttributeValue) (B : Option (List Byte)) (hB : nilWhenEmpty B = true)
    (hc : cur.B = none) (rest : List (String × JSON)) :
    unmarshalFields cur ((if sliceLen B = 0 then [] else [("B", marshalBytes B)]) ++ rest)
      = unmarshalFields { cur with B := B } rest := by
  rcases cur with ⟨b, bo, bs, l, m, n, ns, nu, s, ss⟩
  simp only at hc
  subst hc
  cases B with
  | none => rfl
  | some xs =>
    cases xs with
    | nil => simp [nilWhenEmpty] at hB
    | cons x xs =>
      show unmarshalFields _ (("B", marshalBytes (some (x :: xs))) :: rest) = _
      rw [fields_cons_B]
      simp only [unmarshalBytes_marshal, firstError_none, Prod.mk.eta]

/-- The segment of field `BOOL`. -/
theorem seg_BOOL (cur : AttributeValue) (b : Bool) (hc : cur.BOOL = false)
    (rest : List (String × JSON)) :
    unmarshalFields cur ((if b then [("BOOL", JSON.bool true)] else []) ++ rest)
      = unmarshalFields { cur with BOOL := b } rest := by
  rcases cur with ⟨b0, bo, bs, l, m, n, ns, nu, s, ss⟩
  simp only at hc
  subst hc
  cases b with
  | false => rfl
  | true => rfl

/-- The segment of field `BS`. -/
theorem seg_BS (cur : AttributeValue) (BS : Option (List (Option (List Byte))))
    (hB : nilWhenEmpty BS = true) (hc : cur.BS = none) (rest : List (String × JSON)) :
    unmarshalFields cur
        ((if sliceLen BS = 0 then []
          else [("BS", JSON.arr ((BS.getD []).map marshalBytes))]) ++ rest)
      = unmarshalFields { cur with BS := BS } rest := by
  rcases cur with ⟨b, bo, bs, l, m, n, ns, nu, s, ss⟩
  simp only at hc
  subst hc
  cases BS with
  | none => rfl
  | some xs =>
    cases xs with
    | nil => simp [nilWhenEmpty] at hB
    | cons x xs =>
      show unmarshalFields _ (("BS", JSON.arr ((x :: xs).map marshalBytes)) :: rest) = _
      rw [fields_cons_BS]
      simp only [unmarshalByteSlices, unmarshalBytesElems_marshal, firstError_none,
        Prod.mk.eta]

/-- The segment of field `L`, given the round trip of its elements. -/
theorem seg_L (cur : AttributeValue) (L : Option (List AttributeValue))
    (rest : List (String × JSON)) :
    (match L with
      | none => True
      | some xs => xs ≠ [] ∧ unmarshalList [] (marshalList xs) = (xs, none)) →
    cur.L = none →
    unmarshalFields cur
        ((match L with
          | none => []
          | some xs => if xs.length = 0 then [] else [("L", JSON.arr (marshalList xs))]) ++ rest)
      = unmarshalFields { cur with L := L } rest := by
  intro hL hc
  rcases cur with ⟨b0, bo, bs, l, m, n, ns, nu, s, ss⟩
  simp only at hc
  subst hc
  cases L with
  | none => rfl
  | some xs =>
    obtain ⟨hne, hrt⟩ := hL
    cases xs with
    | nil => exact absurd rfl hne
    | cons x xs =>
      show unmarshalFields _ (("L", JSON.arr (marshalList (x :: xs))) :: rest) = _
      rw [fields_cons_L]
      simp only [Option.getD_none, hrt, firstError_none, Prod.mk.eta]

/-- The segment of field `M`, given the round trip of its entries. -/
theorem seg_M (cur : AttributeValue) (M : Option (List (String × AttributeValue)))
    (rest : List (String × JSON)) :
    (match M with
      | none => True
      | some es => es ≠ [] ∧ unmarshalMap [] (marshalMap es) = (es, none)) →
    cur.M = none →
    unmarshalFields cur
        ((match M with
          | none => []
          | some es => if es.length = 0 then [] else [("M", JSON.obj (marshalMap es))]) ++ rest)
      = unmarshalFields { cur with M := M } rest := by
  intro hM hc
  rcases cur with ⟨b0, bo, bs, l, m, n, ns, nu, s, ss⟩
  simp only at hc
  subst hc
  cases M with
  | none => rfl
  | some es =>
    obtain ⟨hne, hrt⟩ := hM
    cases es with
    | nil => exact absurd rfl hne
    | cons e es =>
      show unmarshalFields _ (("M", JSON.obj (marshalMap (e :: es))) :: rest) = _
      rw [fields_cons_M]
      simp only [Option.getD_none, hrt, firstError_none, Prod.mk.eta]

/-- The segment of field `N`. -/
theorem seg_N (cur : AttributeValue) (N : String) (hc : cur.N = "")
    (rest : List (String × JSON)) :
    unmarshalFields cur ((if N.length = 0 then [] else [("N", JSON.str N)]) ++ rest)
      = unmarshalFields { cur with N := N } rest := by
  rcases cur with ⟨b0, bo, bs, l, m, n, ns, nu, s, ss⟩
  simp only at hc
  subst hc
  by_cases h : N.length = 0
  · rw [if_pos h, string_eq_empty N h]
    rfl
  · rw [if_neg h]
    show unmarshalFields _ (("N", JSON.str N) :: rest) = _
    rw [fields_cons_N]
    simp only [unmarshalString, firstError_none, Prod.mk.eta]

/-- The segment of field `NS`. -/
theorem seg_NS (cur : AttributeValue) (NS : Option (List String))
    (hN : nilWhenEmpty NS = true) (hc : cur.NS = none) (rest : List (String × JSON)) :
    unmarshalFields cur
        ((if sliceLen NS = 0 then [] else [("NS", JSON.arr ((NS.getD []).map JSON.str))])
          ++ rest)
      = unmarshalFields { cur with NS := NS } rest := by
  rcases cur with ⟨b, bo, bs, l, m, n, ns, nu, s, ss⟩
  simp only at hc
  subst hc
  cases NS with
  | none => rfl
  | some xs =>
    cases xs with
    | nil => simp [nilWhenEmpty] at hN
    | cons x xs =>
      show unmarshalFields _ (("NS", JSON.arr ((x :: xs).map JSON.str)) :: rest) = _
      rw [fields_cons_NS]
      simp only [unmarshalStrings, unmarshalStringElems_marshal, firstError_none, Prod.mk.eta]

/-- The segment of field `NULL`. -/
theorem seg_NULL (cur : AttributeValue) (b : Bool) (hc : cur.NULL = false)
    (rest : List (String × JSON)) :
    unmarshalFields cur ((if b then [("NULL", JSON.bool true)] else []) ++ rest)
      = unmarshalFields { cur with NULL := b } rest := by
  rcases cur with ⟨b0, bo, bs, l, m, n, ns, nu, s, ss⟩
  simp only at hc
  subst hc
  cases b with
  | false => rfl
  | true => rfl

/-- The segment of field `S`. -/
theorem seg_S (cur : AttributeValue) (S : String) (hc : cur.S = "")
    (rest : List (String × JSON)) :
    unmarshalFields cur ((if S.length = 0 then [] else [("S", JSON.str S)]) ++ rest)
      = unmarshalFields { cur with S := S } rest := by
  rcases cur with ⟨b0, bo, bs, l, m, n, ns, nu, s, ss⟩
  simp only at hc
  subst hc
  by_cases h : S.length = 0
  · rw [if_pos h, string_eq_empty S h]
    rfl
  · rw [if_neg h]
    show unmarshalFields _ (("S", JSON.str S) :: rest) = _
    rw [fields_cons_S]
    simp only [unmarshalString, firstError_none, Prod.mk.eta]

/-- The segment of field `SS`. -/
theorem seg_SS (cur : AttributeValue) (SS : Option (List String))
    (hS : nilWhenEmpty SS = true) (hc : cur.SS = none) (rest : List (String × JSON)) :
    unmarshalFields cur
        ((if sliceLen SS = 0 then [] else [("SS", JSON.arr ((SS.getD []).map JSON.str))])
          ++ rest)
      = unmarshalFields { cur with SS := SS } rest := by
  rcases cur with ⟨b, bo, bs, l, m, n, ns, nu, s, ss⟩
  simp only at hc
  subst hc
  cases SS with
  | none => rfl
  | some xs =>
    cases xs with
    | nil => simp [nilWhenEmpty] at hS
    | cons x xs =>
      show unmarshalFields _ (("SS", JSON.arr ((x :: xs).map JSON.str)) :: rest) = _
      rw [fields_cons_SS]
      simp only [unmarshalStrings, unmarshalStringElems_marshal, firstError_none, Prod.mk.eta]

/-- The members of an encoded value, segment by segment. -/
theorem marshalMembers_mk (B : Option (List Byte)) (BOOL : Bool)
    (BS : Option (List (Option (List Byte)))) (L : Option (List AttributeValue))
    (M : Option (List (String × AttributeValue))) (N : String) (NS : Option (List String))
    (NULL : Bool) (S : String) (SS : Option (List String)) :
    AttributeValue.marshalMembers ⟨B, BOOL, BS, L, M, N, NS, NULL, S, SS⟩
      = (if sliceLen B = 0 then [] else [("B", marshalBytes B)]) ++
        ((if BOOL then [("BOOL", JSON.bool true)] else []) ++
        ((if sliceLen BS = 0 then [] else [("BS", JSON.arr ((BS.getD []).map marshalBytes))]) ++
        ((match L with
          | none => []
          | some xs => if xs.length = 0 then [] else [("L", JSON.arr (marshalList xs))]) ++
        ((match M with
          | none => []
          | some es => if es.length = 0 then [] else [("M", JSON.obj (marshalMap es))]) ++
        ((if N.length = 0 then [] else [("N", JSON.str N)]) ++
        ((if sliceLen NS = 0 then [] else [("NS", JSON.arr ((NS.getD []).map JSON.str))]) ++
        ((if NULL then [("NULL", JSON.bool true)] else []) ++
        ((if S.length = 0 then [] else [("S", JSON.str S)]) ++
        ((if sliceLen SS = 0 then [] else [("SS", JSON.arr ((SS.getD []).map JSON.str))]) ++
          []))))))))) := by
  have h : AttributeValue.marshalMembers ⟨B, BOOL, BS, L, M, N, NS, NULL, S, SS⟩
      = (if sliceLen B = 0 then [] else [("B", marshalBytes B)]) ++
        (if BOOL then [("BOOL", JSON.bool true)] else []) ++
        (if sliceLen BS = 0 then [] else [("BS", JSON.arr ((BS.getD []).map marshalBytes))]) ++
        (match L with
          | none => []
          | some xs => if xs.length = 0 then [] else [("L", JSON.arr (marshalList xs))]) ++
        (match M with
          | none => []
          | some es => if es.length = 0 then [] else [("M", JSON.obj (marshalMap es))]) ++
        (if N.length = 0 then [] else [("N", JSON.str N)]) ++
        (if sliceLen NS = 0 then [] else [("NS", JSON.arr ((NS.getD []).map JSON.str))]) ++
        (if NULL then [("NULL", JSON.bool true)] else []) ++
        (if S.length = 0 then [] else [("S", JSON.str S)]) ++
        (if sliceLen SS = 0 then [] else [("SS", JSON.arr ((SS.getD []).map JSON.str))]) := by
    cases L <;> cases M <;> rfl
  rw [h]
  simp only [List.append_assoc, List.append_nil]

/-- Decoding the members of an encoded value into a fresh value gives the value back, given
the round trip of the elements of its list and of the entries of its map. -/
theorem members_roundtrip (B : Option (List Byte)) (BOOL : Bool)
    (BS : Option (List (Option (List Byte)))) (L : Option (List AttributeValue))
    (M : Option (List (String × AttributeValue))) (N : String) (NS : Option (List String))
    (NULL : Bool) (S : String) (SS : Option (List String))
    (hB : nilWhenEmpty B = true) (hBS : nilWhenEmpty BS = true)
    (hNS : nilWhenEmpty NS = true) (hSS : nilWhenEmpty SS = true)
    (hL : match L with
      | none => True
      | some xs => xs ≠ [] ∧ unmarshalList [] (marshalList xs) = (xs, none))
    (hM : match M with
      | none => True
      | some es => es ≠ [] ∧ unmarshalMap [] (marshalMap es) = (es, none)) :
    unmarshalFields AttributeValue.zero
        (AttributeValue.marshalMembers ⟨B, BOOL, BS, L, M, N, NS, NULL, S, SS⟩)
      = (⟨B, BOOL, BS, L, M, N, NS, NULL, S, SS⟩, none) := by
  rw [marshalMembers_mk]
  rw [seg_B _ B hB rfl, seg_BOOL _ BOOL rfl, seg_BS _ BS hBS rfl, seg_L _ L _ hL rfl,
    seg_M _ M _ hM rfl, seg_N _ N rfl, seg_NS _ NS hNS rfl, seg_NULL _ NULL rfl, seg_S _ S rfl,
    seg_SS _ SS hSS rfl]
  rfl

/-- What being canonical says of a value, field by field. -/
theorem canonical_mk (B : Option (List Byte)) (BOOL : Bool)
    (BS : Option (List (Option (List Byte)))) (L : Option (List AttributeValue))
    (M : Option (List (String × AttributeValue))) (N : String) (NS : Option (List String))
    (NULL : Bool) (S : String) (SS : Option (List String))
    (h : AttributeValue.canonical ⟨B, BOOL, BS, L, M, N, NS, NULL, S, SS⟩ = true) :
    nilWhenEmpty B = true ∧ nilWhenEmpty BS = true ∧ nilWhenEmpty NS = true ∧
    nilWhenEmpty SS = true ∧
    (∀ xs, L = some xs → xs ≠ [] ∧ canonicalList xs = true) ∧
    (∀ es, M = some es → es ≠ [] ∧ keysAscending es = true ∧ canonicalMap es = true) := by
  cases L <;> cases M <;>
    simp_all [AttributeValue.canonical, List.isEmpty_iff]

/-- Decoding the first element of an array into a slice. -/
theorem unmarshalList_cons (old : List AttributeValue) (x : JSON) (xs : List JSON) :
    unmarshalList old (x :: xs)
      = ((AttributeValue.unmarshalInto (old.headD AttributeValue.zero) x).1 ::
            (unmarshalList old.tail xs).1,
          firstError (AttributeValue.unmarshalInto (old.headD AttributeValue.zero) x).2
            (unmarshalList old.tail xs).2) := rfl

/-- Decoding the first member of an object into a map. -/
theorem unmarshalMap_cons (acc : List (String × AttributeValue)) (k : String) (v : JSON)
    (rest : List (String × JSON)) :
    unmarshalMap acc ((k, v) :: rest)
      = ((unmarshalMap (mapInsert k (AttributeValue.unmarshalInto AttributeValue.zero v).1 acc)
            rest).1,
          firstError (AttributeValue.unmarshalInto AttributeValue.zero v).2
            (unmarshalMap
              (mapInsert k (AttributeValue.unmarshalInto AttributeValue.zero v).1 acc)
              rest).2) := rfl

/-- Decoding an object into a struct is decoding its members. -/
theorem unmarshalInto_obj (cur : AttributeValue) (kvs : List (String × JSON)) :
    AttributeValue.unmarshalInto cur (.obj kvs) = unmarshalFields cur kvs := rfl

mutual
/-- Round trip of the members of a canonical value. -/
theorem roundtrip_value : (v : AttributeValue) → v.canonical = true →
    unmarshalFields AttributeValue.zero v.marshalMembers = (v, none)
  | ⟨B, BOOL, BS, none, none, N, NS, NULL, S, SS⟩, h =>
    members_roundtrip B BOOL BS none none N NS NULL S SS
      (canonical_mk _ _ _ _ _ _ _ _ _ _ h).1 (canonical_mk _ _ _ _ _ _ _ _ _ _ h).2.1
      (canonical_mk _ _ _ _ _ _ _ _ _ _ h).2.2.1 (canonical_mk _ _ _ _ _ _ _ _ _ _ h).2.2.2.1
      trivial trivial
  | ⟨B, BOOL, BS, some xs, none, N, NS, NULL, S, SS⟩, h =>
    members_roundtrip B BOOL BS (some xs) none N NS NULL S SS
      (canonical_mk _ _ _ _ _ _ _ _ _ _ h).1 (canonical_mk _ _ _ _ _ _ _ _ _ _ h).2.1
      (canonical_mk _ _ _ _ _ _ _ _ _ _ h).2.2.1 (canonical_mk _ _ _ _ _ _ _ _ _ _ h).2.2.2.1
      ⟨((canonical_mk _ _ _ _ _ _ _ _ _ _ h).2.2.2.2.1 xs rfl).1,
        roundtrip_list xs ((canonical_mk _ _ _ _ _ _ _ _ _ _ h).2.2.2.2.1 xs rfl).2⟩
      trivial
  | ⟨B, BOOL, BS, none, some es, N, NS, NULL, S, SS⟩, h =>
    members_roundtrip B BOOL BS none (some es) N NS NULL S SS
      (canonical_mk _ _ _ _ _ _ _ _ _ _ h).1 (canonical_mk _ _ _ _ _ _ _ _ _ _ h).2.1
      (canonical_mk _ _ _ _ _ _ _ _ _ _ h).2.2.1 (canonical_mk _ _ _ _ _ _ _ _ _ _ h).2.2.2.1
      trivial
      ⟨((canonical_mk _ _ _ _ _ _ _ _ _ _ h).2.2.2.2.2 es rfl).1,
        roundtrip_map es [] ((canonical_mk _ _ _ _ _ _ _ _ _ _ h).2.2.2.2.2 es rfl).2.2
          ((canonical_mk _ _ _ _ _ _ _ _ _ _ h).2.2.2.2.2 es rfl).2.1
          (fun _ he => absurd he (List.not_mem_nil _))⟩
  | ⟨B, BOOL, BS, some xs, some es, N, NS, NULL, S, SS⟩, h =>
    members_roundtrip B BOOL BS (some xs) (some es) N NS NULL S SS
      (canonical_mk _ _ _ _ _ _ _ _ _ _ h).1 (canonical_mk _ _ _ _ _ _ _ _ _ _ h).2.1
      (canonical_mk _ _ _ _ _ _ _ _ _ _ h).2.2.1 (canonical_mk _ _ _ _ _ _ _ _ _ _ h).2.2.2.1
      ⟨((canonical_mk _ _ _ _ _ _ _ _ _ _ h).2.2.2.2.1 xs rfl).1,
        roundtrip_list xs ((canonical_mk _ _ _ _ _ _ _ _ _ _ h).2.2.2.2.1 xs rfl).2⟩
      ⟨((canonical_mk _ _ _ _ _ _ _ _ _ _ h).2.2.2.2.2 es rfl).1,
        roundtrip_map es [] ((canonical_mk _ _ _ _ _ _ _ _ _ _ h).2.2.2.2.2 es rfl).2.2
          ((canonical_mk _ _ _ _ _ _ _ _ _ _ h).2.2.2.2.2 es rfl).2.1
          (fun _ he => absurd he (List.not_mem_nil _))⟩
/-- Round trip of the elements of a list. -/
theorem roundtrip_list : (xs : List AttributeValue) → canonicalList xs = true →
    unmarshalList [] (marshalList xs) = (xs, none)
  | [], _ => rfl
  | x :: xs, h => by
    have hc : x.canonical = true ∧ canonicalList xs = true := by
      simpa [canonicalList] using h
    have hx := roundtrip_value x hc.1
    have hxs := roundtrip_list xs hc.2
    show unmarshalList [] (JSON.obj x.marshalMembers :: marshalList xs) = _
    rw [unmarshalList_cons]
    simp only [List.headD_nil, List.tail_nil, unmarshalInto_obj, hx, hxs, firstError_none]
/-- Round trip of the entries of a map, stored after entries with smaller keys. -/
theorem roundtrip_map : (es : List (String × AttributeValue)) →
    (acc : List (String × AttributeValue)) → canonicalMap es = true →
    keysAscending es = true →
    (∀ e ∈ acc, ∀ f ∈ es, stringLess e.1.data f.1.data = true) →
    unmarshalMap acc (marshalMap es) = (acc ++ es, none)
  | [], acc, _, _, _ => by
    show (acc, none) = _
    rw [List.append_nil]
  | (k, x) :: es, acc, hc, hk, hacc => by
    have hc2 : x.canonical = true ∧ canonicalMap es = true := by
      simpa [canonicalMap] using hc
    have hk2 : (∀ f ∈ es, stringLess k.data f.1.data = true) ∧ keysAscending es = true := by
      simpa [keysAscending] using hk
    have hx := roundtrip_value x hc2.1
    have hins : mapInsert k x acc = acc ++ [(k, x)] :=
      mapInsert_last k x acc (fun e he => hacc e he (k, x) (List.mem_cons_self _ _))
    have hrest := roundtrip_map es (acc ++ [(k, x)]) hc2.2 hk2.2 (by
      intro e he f hf
      rcases List.mem_append.mp he with h1 | h1
      · exact hacc e h1 f (List.mem_cons_of_mem _ hf)
      · rw [List.mem_singleton] at h1
        subst h1
        exact hk2.1 f hf)
    show unmarshalMap acc ((k, JSON.obj x.marshalMembers) :: marshalMap es) = _
    rw [unmarshalMap_cons]
    simp only [unmarshalInto_obj, hx, hins, hrest, firstError_none, List.append_assoc,
      List.singleton_append]
end

/-- The value of a byte. -/
theorem byte_val (n : Nat) : (byte n).val = n % 256 := rfl

/-- The code point of a character is a Unicode scalar value. -/
theorem char_range (c : Char) :
    c.toNat < 0xD800 ∨ (0xDFFF < c.toNat ∧ c.toNat < 0x110000) := c.valid

/-- A character is recovered from its code point. -/
theorem ofNat_eq (c : Char) (m : Nat) (h : m = c.toNat) : Char.ofNat m = c := by
  subst h
  exact Char.ofNat_toNat c

/-- Decoding a one-byte encoding. -/
theorem decodeRune_one (b0 : Byte) (rest : List Byte) (h0 : b0.val < 0x80) :
    decodeRune (b0 :: rest) = (Char.ofNat b0.val, 1) := by
  simp only [decodeRune, h0, if_true]

/-- Decoding a two-byte encoding. -/
theorem decodeRune_two (b0 b1 : Byte) (rest : List Byte)
    (h0 : 0xC2 ≤ b0.val ∧ b0.val < 0xE0) (h1 : 0x80 ≤ b1.val ∧ b1.val ≤ 0xBF) :
    decodeRune (b0 :: b1 :: rest) = (Char.ofNat (b0.val % 32 * 64 + b1.val % 64), 2) := by
  have e1 : ¬ b0.val < 0x80 := by omega
  have e2 : ¬ b0.val < 0xC2 := by omega
  simp only [decodeRune, e1, e2, h0.2, h1, if_true, if_false, and_self]

/-- Decoding a three-byte encoding. -/
theorem decodeRune_three (b0 b1 b2 : Byte) (rest : List Byte)
    (h0 : 0xE0 ≤ b0.val ∧ b0.val < 0xF0)
    (h1 : (if b0.val = 0xE0 then 0xA0 else 0x80) ≤ b1.val ∧
      b1.val ≤ (if b0.val = 0xED then 0x9F else 0xBF))
    (h2 : 0x80 ≤ b2.val ∧ b2.val ≤ 0xBF) :
    decodeRune (b0 :: b1 :: b2 :: rest)
      = (Char.ofNat (b0.val % 16 * 4096 + b1.val % 64 * 64 + b2.val % 64), 3) := by
  have e1 : ¬ b0.val < 0x80 := by omega
  have e2 : ¬ b0.val < 0xC2 := by omega
  have e3 : ¬ b0.val < 0xE0 := by omega
  have hc : ((if b0.val = 0xE0 then 0xA0 else 0x80) ≤ b1.val ∧
      b1.val ≤ (if b0.val = 0xED then 0x9F else 0xBF) ∧ 0x80 ≤ b2.val ∧ b2.val ≤ 0xBF) :=
    ⟨h1.1, h1.2, h2.1, h2.2⟩
  simp only [decodeRune, e1, e2, e3, h0.2, if_true, if_false]
  rw [if_pos hc]

/-- Decoding a four-byte encoding. -/
theorem decodeRune_four (b0 b1 b2 b3 : Byte) (rest : List Byte)
    (h0 : 0xF0 ≤ b0.val ∧ b0.val < 0xF5)
    (h1 : (if b0.val = 0xF0 then 0x90 else 0x80) ≤ b1.val ∧
      b1.val ≤ (if b0.val = 0xF4 then 0x8F else 0xBF))
    (h2 : 0x80 ≤ b2.val ∧ b2.val ≤ 0xBF) (h3 : 0x80 ≤ b3.val ∧ b3.val ≤ 0xBF) :
    decodeRune (b0 :: b1 :: b2 :: b3 :: rest)
      = (Char.ofNat (b0.val % 8 * 262144 + b1.val % 64 * 4096 + b2.val % 64 * 64
          + b3.val % 64), 4) := by
  have e1 : ¬ b0.val < 0x80 := by omega
  have e2 : ¬ b0.val < 0xC2 := by omega
  have e3 : ¬ b0.val < 0xE0 := by omega
  have e4 : ¬ b0.val < 0xF0 := by omega
  have hc : ((if b0.val = 0xF0 then 0x90 else 0x80) ≤ b1.val ∧
      b1.val ≤ (if b0.val = 0xF4 then 0x8F else 0xBF) ∧
      0x80 ≤ b2.val ∧ b2.val ≤ 0xBF ∧ 0x80 ≤ b3.val ∧ b3.val ≤ 0xBF) :=
    ⟨h1.1, h1.2, h2.1, h2.2, h3.1, h3.2⟩
  simp only [decodeRune, e1, e2, e3, e4, h0.2, if_true, if_false]
  rw [if_pos hc]

/-- The first rune of the UTF-8 encoding of a character, followed by anything, is that
character, with the width of its encoding. -/
theorem decodeRune_runeBytes (c : Char) (rest : List Byte) :
    decodeRune (runeBytes c ++ rest) = (c, (runeBytes c).length) := by
  have hr := char_range c
  by_cases h1 : c.toNat < 0x80
  · have hb : runeBytes c = [byte c.toNat] := by simp only [runeBytes, h1, if_true]
    rw [hb]
    show decodeRune (byte c.toNat :: rest) = _
    rw [decodeRune_one _ _ (by rw [byte_val]; omega)]
    exact Prod.ext (ofNat_eq c _ (by rw [byte_val]; omega)) rfl
  · by_cases h2 : c.toNat < 0x800
    · have hb : runeBytes c = [byte (0xC0 + c.toNat / 64), byte (0x80 + c.toNat % 64)] := by
        simp only [runeBytes, h1, h2, if_true, if_false]
      rw [hb]
      show decodeRune (byte (0xC0 + c.toNat / 64) :: byte (0x80 + c.toNat % 64) :: rest) = _
      rw [decodeRune_two _ _ _ (by rw [byte_val]; omega) (by rw [byte_val]; omega)]
      exact Prod.ext (ofNat_eq c _ (by rw [byte_val, byte_val]; omega)) rfl
    · by_cases h3 : c.toNat < 0x10000
      · have hb : runeBytes c = [byte (0xE0 + c.toNat / 4096),
            byte (0x80 + c.toNat / 64 % 64), byte (0x80 + c.toNat % 64)] := by
          simp only [runeBytes, h1, h2, h3, if_true, if_false]
        rw [hb]
        show decodeRune (byte (0xE0 + c.toNat / 4096) :: byte (0x80 + c.toNat / 64 % 64) ::
          byte (0x80 + c.toNat % 64) :: rest) = _
        rw [decodeRune_three _ _ _ _ (by rw [byte_val]; omega)
          (by rw [byte_val, byte_val]; split_ifs <;> omega) (by rw [byte_val]; omega)]
        exact Prod.ext (ofNat_eq c _ (by rw [byte_val, byte_val, byte_val]; omega)) rfl
      · have hb : runeBytes c = [byte (0xF0 + c.toNat / 262144),
            byte (0x80 + c.toNat / 4096 % 64), byte (0x80 + c.toNat / 64 % 64),
            byte (0x80 + c.toNat % 64)] := by
          simp only [runeBytes, h1, h2, h3, if_false]
        rw [hb]
        show decodeRune (byte (0xF0 + c.toNat / 262144) :: byte (0x80 + c.toNat / 4096 % 64) ::
          byte (0x80 + c.toNat / 64 % 64) :: byte (0x80 + c.toNat % 64) :: rest) = _
        rw [decodeRune_four _ _ _ _ _ (by rw [byte_val]; omega)
          (by rw [byte_val, byte_val]; split_ifs <;> omega) (by rw [byte_val]; omega)
          (by rw [byte_val]; omega)]
        exact Prod.ext
          (ofNat_eq c _ (by rw [byte_val, byte_val, byte_val, byte_val]; omega)) rfl

/-- Writing the encoding of a character, followed by anything, writes the character and goes
on with what follows. -/
theorem wireRunes_runeBytes (c : Char) (rest : List Byte) :
    wireRunes 0 (runeBytes c ++ rest) = c :: wireRunes 0 rest := by
  have hd := decodeRune_runeBytes c rest
  by_cases h1 : c.toNat < 0x80
  · have hb : runeBytes c = [byte c.toNat] := by simp only [runeBytes, h1, if_true]
    rw [hb] at hd ⊢
    simp only [List.cons_append, List.nil_append, List.length_cons, List.length_nil] at hd ⊢
    simp only [wireRunes, hd]
  · by_cases h2 : c.toNat < 0x800
    · have hb : runeBytes c = [byte (0xC0 + c.toNat / 64), byte (0x80 + c.toNat % 64)] := by
        simp only [runeBytes, h1, h2, if_true, if_false]
      rw [hb] at hd ⊢
      simp only [List.cons_append, List.nil_append, List.length_cons, List.length_nil] at hd ⊢
      simp only [wireRunes, hd]
    · by_cases h3 : c.toNat < 0x10000
      · have hb : runeBytes c = [byte (0xE0 + c.toNat / 4096),
            byte (0x80 + c.toNat / 64 % 64), byte (0x80 + c.toNat % 64)] := by
          simp only [runeBytes, h1, h2, h3, if_true, if_false]
        rw [hb] at hd ⊢
        simp only [List.cons_append, List.nil_append, List.length_cons, List.length_nil]
          at hd ⊢
        simp only [wireRunes, hd]
      · have hb : runeBytes c = [byte (0xF0 + c.toNat / 262144),
            byte (0x80 + c.toNat / 4096 % 64), byte (0x80 + c.toNat / 64 % 64),
            byte (0x80 + c.toNat % 64)] := by
          simp only [runeBytes, h1, h2, h3, if_false]
        rw [hb] at hd ⊢
        simp only [List.cons_append, List.nil_append, List.length_cons, List.length_nil]
          at hd ⊢
        simp only [wireRunes, hd]

/-- A Go string that holds valid UTF-8 is written as its text. -/
theorem wireRunes_textBytes (cs : List Char) : wireRunes 0 (textBytes cs) = cs := by
  induction cs with
  | nil => rfl
  | cons c cs ih => rw [textBytes, wireRunes_runeBytes, ih]

/-- A JSON string stored as a Go string and written again is the same JSON string. -/
theorem wireText_goBytes (s : String) : wireText (goBytes s) = s := by
  unfold wireText goBytes
  rw [wireRunes_textBytes]

/-- The encoding of a list nested `n` deep nests `2 * n + 1` arrays and objects. -/
theorem deepList_depth (n : Nat) : (deepList n).marshal.depth = 2 * n + 1 := by
  induction n with
  | zero => rfl
  | succ n ih =>
    have h : (deepList (n + 1)).marshal = .obj [("L", .arr [(deepList n).marshal])] := rfl
    have hw : (JSON.obj [("L", .arr [(deepList n).marshal])]).depth
        = max (max (deepList n).marshal.depth 0 + 1) 0 + 1 := rfl
    rw [h, hw, ih]
    simp only [Nat.max_zero]
    omega

/-- A nested list around true is canonical. -/
theorem deepList_canonical (n : Nat) : (deepList n).canonical = true := by
  induction n with
  | zero => rfl
  | succ n ih =>
    have h : (deepList (n + 1)).canonical = (true && ((deepList n).canonical && true) && true) :=
      rfl
    rw [h, ih]
    rfl

/-- A value whose encoding does not nest too deep is decoded member by member. -/
theorem unmarshal_of_depth (v : AttributeValue) (h : v.marshal.depth ≤ maxNestingDepth) :
    AttributeValue.unmarshal v.marshal = unmarshalFields AttributeValue.zero v.marshalMembers := by
  unfold AttributeValue.unmarshal
  rw [if_neg (Nat.not_lt.mpr h)]
  rfl

/-- Claim C11, refuted as stated: the value whose B is the empty, non-nil byte sequence, and
the value whose L is the empty, non-nil list, are encoded as the empty object and decoded as
the zero value, which differs from them (B and L come back nil); the Go string made of the one
byte 0xFF is written as U+FFFD and read back as the three bytes EF BF BD; and the list nested
5000 deep is encoded but not decoded, its text nesting 10001 arrays and objects. -/
theorem empty_payload_does_not_round_trip :
    AttributeValue.unmarshal ({ AttributeValue.zero with B := some [] } : AttributeValue).marshal
      = (AttributeValue.zero, none) ∧
    AttributeValue.zero ≠ { AttributeValue.zero with B := some [] } ∧
    AttributeValue.unmarshal ({ AttributeValue.zero with L := some [] } : AttributeValue).marshal
      = (AttributeValue.zero, none) ∧
    AttributeValue.zero ≠ { AttributeValue.zero with L := some [] } ∧
    wireText [255] = String.mk [runeError] ∧
    goBytes (wireText [255]) = [239, 191, 189] ∧
    (deepList 5000).canonical = true ∧
    AttributeValue.unmarshal (deepList 5000).marshal
      = (AttributeValue.zero, some .exceededMaxDepth) := by
  refine ⟨rfl, ?_, rfl, ?_, rfl, rfl, deepList_canonical 5000, ?_⟩
  · intro h
    have hB := congrArg AttributeValue.B h
    exact Option.noConfusion hB
  · intro h
    have hL := congrArg AttributeValue.L h
    exact Option.noConfusion hL
  · unfold AttributeValue.unmarshal
    rw [if_pos]
    rw [deepList_depth]
    decide

/-- Claim C11 as amended: for every `AttributeValue` whose strings are valid UTF-8 (the text of
the model's strings), in which at every depth a slice or map without elements is nil (and the
entries of a map are in key order), and whose encoding nests at most 10000 arrays and objects,
decoding the wire encoding yields the value itself, with no error; in particular an N payload
is returned character for character for any text (a Go string holding it is written as that
text), and a B payload of one byte or more is returned byte for byte. -/
theorem canonical_value_round_trips (v : AttributeValue) (n : String) (bs : List Byte)
    (hv : v.canonical = true) (hd : v.marshal.depth ≤ maxNestingDepth) (hbs : bs ≠ []) :
    AttributeValue.unmarshal v.marshal = (v, none) ∧
    AttributeValue.unmarshal ({ AttributeValue.zero with N := n } : AttributeValue).marshal
      = ({ AttributeValue.zero with N := n }, none) ∧
    wireText (goBytes n) = n ∧
    AttributeValue.unmarshal ({ AttributeValue.zero with B := some bs } : AttributeValue).marshal
      = ({ AttributeValue.zero with B := some bs }, none) := by
  refine ⟨?_, ?_, wireText_goBytes n, ?_⟩
  · rw [unmarshal_of_depth v hd]
    exact roundtrip_value v hv
  · have hdn : ({ AttributeValue.zero with N := n } : AttributeValue).marshal.depth
        ≤ maxNestingDepth := by
      by_cases h : n.length = 0 <;>
        simp [AttributeValue.marshal, AttributeValue.marshalMembers, AttributeValue.zero,
          sliceLen, h, JSON.depth, depthOfMembers, maxNestingDepth]
    rw [unmarshal_of_depth _ hdn]
    exact roundtrip_value _ rfl
  · cases bs with
    | nil => exact absurd rfl hbs
    | cons b bs =>
      have hdb : ({ AttributeValue.zero with B := some (b :: bs) } :
          AttributeValue).marshal.depth ≤ maxNestingDepth := by
        have hm : ({ AttributeValue.zero with B := some (b :: bs) } : AttributeValue).marshal
            = .obj [("B", .str (base64Encode (b :: bs)))] := rfl
        rw [hm]
        simp [JSON.depth, depthOfMembers, maxNestingDepth]
      rw [unmarshal_of_depth _ hdb]
      exact roundtrip_value _ rfl

/-- Witness for C11 as amended: a nested value with a 30-digit number, a binary, a list, a set
and a non-ASCII string; and a two-byte binary. -/
theorem canonical_value_round_trips_witness :
    sampleNested.canonical = true ∧
    sampleNested.marshal.depth ≤ maxNestingDepth ∧
    AttributeValue.unmarshal sampleNested.marshal = (sampleNested, none) ∧
    AttributeValue.unmarshal
      ({ AttributeValue.zero with N := "123456789012345678901234567890" } :
        AttributeValue).marshal
      = ({ AttributeValue.zero with N := "123456789012345678901234567890" }, none) ∧
    AttributeValue.unmarshal
      ({ AttributeValue.zero with B := some [0, 255] } : AttributeValue).marshal
      = ({ AttributeValue.zero with B := some [0, 255] }, none) :=
  ⟨rfl, by decide,
    (canonical_value_round_trips sampleNested "123456789012345678901234567890" [0, 255] rfl
      (by decide) (by decide)).1,
    (canonical_value_round_trips sampleNested "123456789012345678901234567890" [0, 255] rfl
      (by decide) (by decide)).2.1,
    (canonical_value_round_trips sampleNested "123456789012345678901234567890" [0, 255] rfl
      (by decide) (by decide)).2.2.2⟩

/-- Claim C12, refuted as stated: a boolean false, an empty list and an empty map are each
encoded as the empty object, which has no key at all. -/
theorem false_and_empty_encode_without_key :
    ({ AttributeValue.zero with BOOL := false } : AttributeValue).marshal = .obj [] ∧
    ({ AttributeValue.zero with L := some [] } : AttributeValue).marshal = .obj [] ∧
    ({ AttributeValue.zero with M := some [] } : AttributeValue).marshal = .obj [] ∧
    (JSON.obj []).keys.length = 0 :=
  ⟨rfl, rfl, rfl, rfl⟩

/-- Claim C12 as amended: for every `AttributeValue` with exactly one populated field (a
non-empty string, number, binary, set, list or map, or BOOL or NULL set to true), the wire
encoding is a JSON object with exactly one key, and that key is the tag of that field, one of
the ten type tags. -/
theorem single_variant_encodes_under_its_tag (v : AttributeValue) (tag : String)
    (h : v.populated = [tag]) :
    (∃ payload, v.marshal = .obj [(tag, payload)]) ∧
    tag ∈ ["B", "BOOL", "BS", "L", "M", "N", "NS", "NULL", "S", "SS"] := by
  constructor
  · have hk : v.marshalMembers.map Prod.fst = [tag] := by
      have := marshal_keys v
      rw [h] at this
      exact this
    unfold AttributeValue.marshal
    match hm : v.marshalMembers, hk with
    | [(k, p)], hk =>
      simp only [List.map_cons, List.map_nil, List.cons.injEq, and_true] at hk
      subst hk
      exact ⟨p, rfl⟩
  · have hmem : tag ∈ v.populated := by
      rw [h]
      exact List.mem_singleton_self _
    simp only [AttributeValue.populated, List.mem_append] at hmem
    simp only [List.mem_cons, List.mem_singleton, List.mem_nil_iff, or_false]
    rcases hmem with ((((((((hm | hm) | hm) | hm) | hm) | hm) | hm) | hm) | hm) | hm <;>
      split at hm <;> simp_all

/-- Witness for C12 as amended: the number "42" and the boolean true. -/
theorem single_variant_encodes_under_its_tag_witness :
    ({ AttributeValue.zero with N := "42" } : AttributeValue).populated = ["N"] ∧
    ∃ payload, ({ AttributeValue.zero with N := "42" } : AttributeValue).marshal
      = .obj [("N", payload)] :=
  ⟨by decide,
    (single_variant_encodes_under_its_tag { AttributeValue.zero with N := "42" } "N"
      (by decide)).1⟩

/-- Claim C13, refuted as stated: a string set with a duplicate member is encoded, duplicate
included, and an empty string set is encoded too, as the empty object; no error is raised. -/
theorem set_duplicate_or_empty_not_rejected :
    ¬ (["a", "a"] : List String).Nodup ∧
    ({ AttributeValue.zero with SS := some ["a", "a"] } : AttributeValue).marshal
      = .obj [("SS", .arr [.str "a", .str "a"])] ∧
    ({ AttributeValue.zero with SS := some [] } : AttributeValue).marshal = .obj [] :=
  ⟨by decide, rfl, rfl⟩

/-- Claim C13 as amended: encoding an `AttributeValue` whose set field (SS, NS or BS) contains
a duplicate member does not fail: the members are encoded as they are, duplicates included;
encoding one whose set field is empty does not fail either: the field is left out. -/
theorem set_duplicate_or_empty_is_encoded (xs : List String) (bs : List (Option (List Byte)))
    (hx : ¬ xs.Nodup) (hb : ¬ bs.Nodup) :
    ({ AttributeValue.zero with SS := some xs } : AttributeValue).marshal
      = .obj [("SS", .arr (xs.map JSON.str))] ∧
    ({ AttributeValue.zero with NS := some xs } : AttributeValue).marshal
      = .obj [("NS", .arr (xs.map JSON.str))] ∧
    ({ AttributeValue.zero with BS := some bs } : AttributeValue).marshal
      = .obj [("BS", .arr (bs.map marshalBytes))] ∧
    ({ AttributeValue.zero with SS := some [] } : AttributeValue).marshal = .obj [] ∧
    ({ AttributeValue.zero with NS := some [] } : AttributeValue).marshal = .obj [] ∧
    ({ AttributeValue.zero with BS := some [] } : AttributeValue).marshal = .obj [] := by
  cases xs with
  | nil => exact absurd List.nodup_nil hx
  | cons x xs =>
    cases bs with
    | nil => exact absurd List.nodup_nil hb
    | cons b bs => exact ⟨rfl, rfl, rfl, rfl, rfl, rfl⟩

/-- Witness for C13 as amended: the sets `["a", "a"]` and two equal binaries. -/
theorem set_duplicate_or_empty_is_encoded_witness :
    ¬ (["a", "a"] : List String).Nodup ∧
    ¬ ([some [1], some [1]] : List (Option (List Byte))).Nodup ∧
    ({ AttributeValue.zero with NS := some ["a", "a"] } : AttributeValue).marshal
      = .obj [("NS", .arr [.str "a", .str "a"])] :=
  ⟨by decide, by decide,
    (set_duplicate_or_empty_is_encoded ["a", "a"] [some [1], some [1]] (by decide)
      (by decide)).2.1⟩

/-- Claim C14, evaluated on the code: a `WriteRequest` that carries only a put is encoded with
both keys, `DeleteRequest` holding `{"Key": null}`, and one that carries only a delete is
encoded with both keys, `PutRequest` holding `{"Item": null}`; the absent member is not
omitted. -/
theorem writeRequest_encodes_both_members (p : PutRequest) (d : DeleteRequest) :
    ({ PutRequest := p } : WriteRequest).marshal
      = .obj [("DeleteRequest", .obj [("Key", .null)]), ("PutRequest", p.marshal)] ∧
    ({ DeleteRequest := d } : WriteRequest).marshal
      = .obj [("DeleteRequest", d.marshal), ("PutRequest", .obj [("Item", .null)])] ∧
    samplePut.marshal.keys = ["DeleteRequest", "PutRequest"] ∧
    sampleDelete.marshal.keys = ["DeleteRequest", "PutRequest"] :=
  ⟨rfl, rfl, rfl, rfl⟩

/-- Claim C15, refuted as stated: with a transport that puts attributes in the response,
PutItem, DeleteItem and UpdateItem return them although ReturnValues is unset, and PutItem
returns them although ReturnValues is NONE. -/
theorem attributes_returned_unrequested :
    (sampleClient.PutItem (fillingTransport none) {} freshWorld).1.1.Attributes
      = some sampleKey ∧
    (sampleClient.PutItem (fillingTransport none) { ReturnValues := "NONE" }
      freshWorld).1.1.Attributes = some sampleKey ∧
    (sampleClient.DeleteItem (fillingTransport none) {} freshWorld).1.1.Attributes
      = some sampleKey ∧
    (sampleClient.UpdateItem (fillingTransport none) {} freshWorld).1.1.Attributes
      = some sampleKey :=
  ⟨rfl, rfl, rfl, rfl⟩

/-- Claim C15 as amended: for PutItem, DeleteItem and UpdateItem and every request whose
ReturnValues is unset or NONE, the Attributes field of the response returned to the caller is
the one the transport left in the response; the operation does not consult ReturnValues. -/
theorem attributes_are_the_transports {σ : Type} (t : Transport σ) (c : DynamoDB) (w : World σ)
    (p : PutItemInput) (d : DeleteItemInput) (u : UpdateItemInput)
    (_hp : p.ReturnValues = "" ∨ p.ReturnValues = "NONE")
    (_hd : d.ReturnValues = "" ∨ d.ReturnValues = "NONE")
    (_hu : u.ReturnValues = "" ∨ u.ReturnValues = "NONE") :
    (c.PutItem t p w).1.1.Attributes
      = PutItemOutput.Attributes (t.run (Operation.call c .PutItem p) w.net).1.1 ∧
    (c.DeleteItem t d w).1.1.Attributes
      = DeleteItemOutput.Attributes (t.run (Operation.call c .DeleteItem d) w.net).1.1 ∧
    (c.UpdateItem t u w).1.1.Attributes
      = UpdateItemOutput.Attributes (t.run (Operation.call c .UpdateItem u) w.net).1.1 :=
  ⟨rfl, rfl, rfl⟩

/-- Witness for C15 as amended: requests with ReturnValues unset or NONE, and a transport that
fills Attributes. -/
theorem attributes_are_the_transports_witness :
    (({ ReturnValues := "NONE" } : PutItemInput).ReturnValues = "" ∨
      ({ ReturnValues := "NONE" } : PutItemInput).ReturnValues = "NONE") ∧
    (sampleClient.PutItem (fillingTransport none) { ReturnValues := "NONE" }
      freshWorld).1.1.Attributes
      = PutItemOutput.Attributes ((fillingTransport none).run
          (Operation.call sampleClient .PutItem { ReturnValues := "NONE" }) freshWorld.net).1.1 :=
  ⟨Or.inr rfl,
    (attributes_are_the_transports (fillingTransport none) sampleClient freshWorld
      { ReturnValues := "NONE" } {} {} (Or.inr rfl) (Or.inl rfl) (Or.inl rfl)).1⟩

/-- Claim C16: for every DeleteItem request without a condition, if the transport reports
success with a response that carries no Attributes, DeleteItem returns no failure and a
response whose Attributes is absent. -/
theorem deleteItem_of_missing_item_succeeds {σ : Type} (t : Transport σ) (c : DynamoDB)
    (w : World σ) (d : DeleteItemInput)
    (_hcond : d.Expected = none ∧ d.ConditionExpression = "")
    (hok : (t.run (Operation.call c .DeleteItem d) w.net).1.2 = none)
    (habsent : DeleteItemOutput.Attributes
      (t.run (Operation.call c .DeleteItem d) w.net).1.1 = none) :
    (c.DeleteItem t d w).1.2 = none ∧ (c.DeleteItem t d w).1.1.Attributes = none :=
  ⟨hok, habsent⟩

/-- Witness for C16: an unconditional delete answered with an empty success response. -/
theorem deleteItem_of_missing_item_succeeds_witness :
    (({ Key := some sampleKey, TableName := "t" } : DeleteItemInput).Expected = none ∧
      ({ Key := some sampleKey, TableName := "t" } : DeleteItemInput).ConditionExpression
        = "") ∧
    (sampleClient.DeleteItem okTransport { Key := some sampleKey, TableName := "t" }
      freshWorld).1.2 = none ∧
    (sampleClient.DeleteItem okTransport { Key := some sampleKey, TableName := "t" }
      freshWorld).1.1.Attributes = none :=
  ⟨⟨rfl, rfl⟩,
    deleteItem_of_missing_item_succeeds okTransport sampleClient freshWorld
      { Key := some sampleKey, TableName := "t" } ⟨rfl, rfl⟩ rfl rfl⟩

/-- Claim C17, refuted as stated: with a transport that fails after it has put an item in the
response, GetItem returns the failure together with the partly filled response. -/
theorem failure_comes_with_response :
    (sampleClient.GetItem (fillingTransport (some ⟨"cancelled"⟩)) {} freshWorld).1
      = (({ Item := some sampleKey } : GetItemOutput), some ⟨"cancelled"⟩) :=
  rfl

/-- Claim C17 as amended: an operation always returns a response value; whenever the transport
reports a failure, the operation returns that failure together with the response value as the
transport left it. -/
theorem operation_returns_response_and_failure {σ : Type} (t : Transport σ) (c : DynamoDB)
    (op : Operation) (req : op.Input.type) (w : World σ) (e : Error)
    (h : (t.run (op.call c req) w.net).1.2 = some e) :
    (op.invoke t c req w).1 = ((t.run (op.call c req) w.net).1.1, some e) := by
  rw [invoke_eq_run, ← h]

/-- Witness for C17 as amended: GetItem with a transport that fails after filling the item. -/
theorem operation_returns_response_and_failure_witness :
    ((fillingTransport (some ⟨"cancelled"⟩)).run
      (Operation.call sampleClient .GetItem ({} : GetItemInput)) freshWorld.net).1.2
      = some ⟨"cancelled"⟩ ∧
    (Operation.invoke (fillingTransport (some ⟨"cancelled"⟩)) sampleClient .GetItem
      ({} : GetItemInput) freshWorld).1
      = (({ Item := some sampleKey } : GetItemOutput), some ⟨"cancelled"⟩) :=
  ⟨rfl,
    operation_returns_response_and_failure (fillingTransport (some ⟨"cancelled"⟩)) sampleClient
      .GetItem ({} : GetItemInput) freshWorld ⟨"cancelled"⟩ rfl⟩

/-- Claim C18, evaluated on the code: with a transport that answers with an empty item list and
a LastEvaluatedKey, Query reports no failure and returns that page as it is; the page breaks
the pagination invariant that the doc comment of Query states. -/
theorem query_returns_empty_page_with_cursor :
    (sampleClient.Query (fillingTransport none) {} freshWorld).1.2 = none ∧
    (sampleClient.Query (fillingTransport none) {} freshWorld).1.1.Items = some [] ∧
    (sampleClient.Query (fillingTransport none) {} freshWorld).1.1.LastEvaluatedKey
      = some sampleKey ∧
    (sampleClient.Query (fillingTransport none) {} freshWorld).1.1.pageInvariant = false ∧
    (sampleClient.Query (fillingTransport none) {} freshWorld).1
      = ((fillingTransport none).run (Operation.call sampleClient .Query ({} : QueryInput))
          freshWorld.net).1 :=
  ⟨rfl, rfl, rfl, rfl, rfl⟩

/-- Claim C19, evaluated on the code: the encoding of an `ExpectedAttributeValue` holds the key
`Exists` only when `Exists` is true; with `Exists = false` the key is absent, and the request
reads the same as one that never set it. -/
theorem expected_exists_false_is_omitted (e : ExpectedAttributeValue) :
    e.marshal.member "Exists" = (if e.Exists then some (.bool true) else none) ∧
    ({ Exists := false } : ExpectedAttributeValue).marshal = .obj [("Value", .obj [])] ∧
    ({ Exists := false } : ExpectedAttributeValue).marshal
      = ({} : ExpectedAttributeValue).marshal := by
  refine ⟨?_, rfl, rfl⟩
  rcases e with ⟨avl, co, ex, v⟩
  by_cases h1 : sliceLen avl = 0 <;> by_cases h2 : co.length = 0 <;> cases ex <;>
    simp [ExpectedAttributeValue.marshal, JSON.member, h1, h2, List.find?]

/-- Claim C20, evaluated on the code: the encoding of a `QueryInput` holds the key
`ScanIndexForward` only when the field is true (with the value true); with
`ScanIndexForward = false` the key is absent and the request reads the same as one that never
set it. -/
theorem scanIndexForward_false_is_omitted (q : QueryInput) :
    ("ScanIndexForward" ∈ q.marshal.keys ↔ q.ScanIndexForward = true) ∧
    ({ ScanIndexForward := true, TableName := "t" } : QueryInput).marshal
      = .obj [("KeyConditions", .null), ("ScanIndexForward", .bool true),
          ("TableName", .str "t")] ∧
    ({ ScanIndexForward := false, TableName := "t" } : QueryInput).marshal
      = .obj [("KeyConditions", .null), ("TableName", .str "t")] ∧
    ({ ScanIndexForward := false, TableName := "t" } : QueryInput).marshal
      = ({ TableName := "t" } : QueryInput).marshal := by
  refine ⟨?_, rfl, rfl, rfl⟩
  simp [QueryInput.marshal, JSON.keys, apply_ite (List.map Prod.fst)]

end dynamodb
